import Mathlib

/-!
# Deal-engine wire types (`webapi/types/types.go`)

A shallow embedding of the package: the CID shortening helper
`TrimCidString`, the derivation step `FilSourceDAG.InitDerivedVals`, the table
of `APIErrorCode` constants, and the records of the wire contract with the
JSON documents their struct tags prescribe.

Conventions of the embedding

* A Go `string` is a finite sequence of bytes, `List UInt8`; `len` is the
  number of bytes.  Literals are written through `goStr`, the UTF-8 bytes of
  a literal.
* Go `int` indices are `Int`; every value that occurs is far below `2^63`
  (a length, a length minus 8, the constant 16), so no wrap-around is
  modelled.
* A run-time panic (slice bounds out of range) is the outer `none` of an
  `Option` result.
* A method with a pointer receiver returns the receiver after the call next
  to its Go result.
* A slice is `Option (List α)`, `none` being the nil slice; a pointer field is
  an `Option`, `none` being nil.
-/

namespace Types

/-! ## Strings -/

/-- A Go string: its bytes, in order. -/
abbrev GoString := List UInt8

/-- The bytes of a Go string literal (Go source text is UTF-8). -/
def goStr (s : String) : GoString := s.data.flatMap String.utf8EncodeChar

/-- Go `len(cs)` on a string: the number of bytes, as an `int`. -/
def len (cs : GoString) : Int := (cs.length : Int)

/-- The slice expression `cs[lo:hi]` on a string.  Go requires
`0 <= lo <= hi <= len(cs)` and panics otherwise (`none`). -/
def goSlice (cs : GoString) (lo hi : Int) : Option GoString :=
  if 0 ≤ lo ∧ lo ≤ hi ∧ hi ≤ len cs then
    some ((cs.drop lo.toNat).take (hi.toNat - lo.toNat))
  else
    none

/-- The fragment of `fmt.Sprintf` this package uses: the format is copied byte
by byte, and the verb `%s` (bytes 37, 115) is replaced by the next operand,
which is a string.  Any other use of `%`, a missing operand and a surplus
operand are outside the fragment (`none`). -/
def Sprintf : GoString → List GoString → Option GoString
  | [], [] => some []
  | [], _ :: _ => none
  | c :: rest, args =>
    if c = 37 then
      match rest, args with
      | v :: rest', a :: args' =>
        if v = 115 then (Sprintf rest' args').map (fun out => a ++ out) else none
      | _, _ => none
    else
      (Sprintf rest args).map (fun out => c :: out)

/-! ## `TrimCidString` -/

/-- Source constant `cidTrimPrefix = 6`. -/
def cidTrimPrefix : Int := 6

/-- Source constant `cidTrimSuffix = 8`. -/
def cidTrimSuffix : Int := 8

/-- Source function `TrimCidString`:
```go
if len(cs) <= cidTrimPrefix+cidTrimSuffix+2 { return cs }
return cs[0:cidTrimPrefix] + "~" + cs[len(cs)-cidTrimSuffix:]
```
-/
def TrimCidString (cs : GoString) : Option GoString :=
  if len cs ≤ cidTrimPrefix + cidTrimSuffix + 2 then
    some cs
  else do
    let pre ← goSlice cs 0 cidTrimPrefix
    let suf ← goSlice cs (len cs - cidTrimSuffix) (len cs)
    pure (pre ++ goStr "~" ++ suf)

/-- The reference definition of the shortening, in the words of the
specification: a string of at most 16 bytes is returned unchanged, a longer
one becomes its first 6 bytes, `~`, and its last 8 bytes. -/
def trimCidStringRef (cs : GoString) : GoString :=
  if cs.length ≤ 16 then cs
  else cs.take 6 ++ goStr "~" ++ cs.drop (cs.length - 8)

/-! ## `FilSourceDAG` -/

/-- A `*time.Location` as `time.FixedZone(name, offset)` builds it: the name of
the zone and its offset east of UTC in seconds.  Locations with transitions
are not modelled. -/
structure Location where
  name : GoString
  offset : Int
  deriving DecidableEq, Repr

/-- A `time.Time` value, by its three fields: the two numeric fields `wall`
and `ext` and the location pointer `loc`, `none` being nil, which stands for
UTC.  Two times are equal when all three fields are, the location compared by
what it points to.  The derivation step never inspects or changes a time. -/
structure Time where
  wall : Nat
  ext : Int
  loc : Option Location
  deriving DecidableEq, Repr

/-- Source struct `FilSourceDAG`.  The two pointer fields are optional
values. -/
structure FilSourceDAG where
  SourceType : GoString
  DealID : Int
  ProviderID : GoString
  OriginalPayloadCid : GoString
  DealExpiration : Time
  IsFilplus : Bool
  SectorID : Option GoString
  SectorExpiration : Option Time
  SampleRetrieveCmd : GoString
  deriving DecidableEq, Repr

/-- A Go `error` built by `fmt.Errorf(format, s)`: the format together with
the receiver as it was when the error was built.  The `%#v` rendering of the
struct is not expanded. -/
structure GoError where
  format : GoString
  operand : FilSourceDAG
  deriving DecidableEq, Repr

/-- Source method `SrcType`: `return s.SourceType`. -/
def FilSourceDAG.SrcType (s : FilSourceDAG) : GoString := s.SourceType

/-- The format string of the sample retrieval command. -/
def sampleRetrieveFormat : GoString :=
  goStr "lotus client retrieve --provider %s --maxPrice 0 --allow-local --car '%s' $(pwd)/%s__%s.car"

/-- The format string of the validation error. -/
def missingValuesFormat : GoString :=
  goStr "filecoin DAG-source object missing mandatory values: %#v"

/-- Source method `InitDerivedVals`.  The result is the receiver after the
call and the returned `error` (`none` is Go `nil`); the outer `none` is a
panic.
```go
s.SourceType = "FilecoinDAG"
if s.ProviderID == "" || s.OriginalPayloadCid == "" {
    return fmt.Errorf("filecoin DAG-source object missing mandatory values: %#v", s)
}
s.SampleRetrieveCmd = fmt.Sprintf("lotus client retrieve ...",
    s.ProviderID, s.OriginalPayloadCid,
    TrimCidString(pieceCid), TrimCidString(s.OriginalPayloadCid))
return nil
```
-/
def FilSourceDAG.InitDerivedVals (s : FilSourceDAG) (pieceCid : GoString) :
    Option (FilSourceDAG × Option GoError) :=
  let s1 := { s with SourceType := goStr "FilecoinDAG" }
  if s1.ProviderID = goStr "" ∨ s1.OriginalPayloadCid = goStr "" then
    some (s1, some ⟨missingValuesFormat, s1⟩)
  else do
    let shortPiece ← TrimCidString pieceCid
    let shortPayload ← TrimCidString s1.OriginalPayloadCid
    let cmd ← Sprintf sampleRetrieveFormat
      [s1.ProviderID, s1.OriginalPayloadCid, shortPiece, shortPayload]
    pure ({ s1 with SampleRetrieveCmd := cmd }, none)

/-- The retrieval command written out as a concatenation, in the words of the
specification: provider, payload CID, shortened piece CID and shortened
payload CID in their places. -/
def retrieveCmdText (provider payload shortPiece shortPayload : GoString) : GoString :=
  goStr "lotus client retrieve --provider " ++ provider ++
    goStr " --maxPrice 0 --allow-local --car '" ++ payload ++
    goStr "' $(pwd)/" ++ shortPiece ++ goStr "__" ++ shortPayload ++ goStr ".car"

/-- The content identifier of the documented shortening example. -/
def exampleCid : GoString :=
  goStr "bafybeigdyrzt5sfp7udm7hu76uh7y26nf3efuylqabf3oclgtqy55fbzdi"

/-- A descriptor with a provider and a payload CID, as a decision source hands
it over before derivation. -/
def exampleSource : FilSourceDAG where
  SourceType := goStr ""
  DealID := 1234
  ProviderID := goStr "f01234"
  OriginalPayloadCid := exampleCid
  DealExpiration := ⟨0, 0, none⟩
  IsFilplus := true
  SectorID := none
  SectorExpiration := none
  SampleRetrieveCmd := goStr ""

/-- A descriptor without a provider that already carries a command text. -/
def staleSource : FilSourceDAG where
  SourceType := goStr "Other"
  DealID := 1234
  ProviderID := goStr ""
  OriginalPayloadCid := exampleCid
  DealExpiration := ⟨0, 0, none⟩
  IsFilplus := false
  SectorID := none
  SectorExpiration := none
  SampleRetrieveCmd := goStr "stale"

/-- A piece CID longer than 16 bytes. -/
def examplePieceCid : GoString :=
  goStr "baga6ea4seaqao7s73y24kcutaosvacpdjgfe5pw76ooefnyqw4ynr3d2y6x2mpq"

/-! ## `APIErrorCode` -/

/-- Source type `APIErrorCode` (`int`). -/
abbrev APIErrorCode := Int

/-! The `const` block, one definition per constant; blank lines separate four
blocks of 3, 3, 6 and 1 constants, as in the source. -/

def ErrInvalidRequest : APIErrorCode := 4400
def ErrUnauthorizedAccess : APIErrorCode := 4401
def ErrSystemTemporarilyDisabled : APIErrorCode := 4503

def ErrOversizedPiece : APIErrorCode := 4011
def ErrStorageProviderSuspended : APIErrorCode := 4012
def ErrStorageProviderIneligibleToMine : APIErrorCode := 4013

def ErrUnclaimedPieceCID : APIErrorCode := 4020
def ErrProviderHasReplica : APIErrorCode := 4021
def ErrTenantsOutOfDatacap : APIErrorCode := 4022
def ErrTooManyReplicas : APIErrorCode := 4023
def ErrProviderAboveMaxInFlight : APIErrorCode := 4024
def ErrReplicationRulesViolation : APIErrorCode := 4029

def ErrExternalReservationRefused : APIErrorCode := 4030

/-- The constants of the `const` block, in source order. -/
def declaredAPIErrorCodes : List APIErrorCode :=
  [ErrInvalidRequest, ErrUnauthorizedAccess, ErrSystemTemporarilyDisabled,
   ErrOversizedPiece, ErrStorageProviderSuspended, ErrStorageProviderIneligibleToMine,
   ErrUnclaimedPieceCID, ErrProviderHasReplica, ErrTenantsOutOfDatacap,
   ErrTooManyReplicas, ErrProviderAboveMaxInFlight, ErrReplicationRulesViolation,
   ErrExternalReservationRefused]

/-- The decimal digit of `c` at position `k` from the right (`0` is the units
digit). -/
def decimalDigit (c : APIErrorCode) (k : Nat) : Int := (c / 10 ^ k) % 10

/-- The four cause groups the specification names. -/
inductive CauseGroup where
  | generic
  | providerEligibility
  | replicationRules
  | externalReservation
  deriving DecidableEq, Repr

/-- The digit pattern of a cause group, in the words of the specification:
`x4xx`, `x01x`, `x02x`, `x03x`, where `x` stands for any digit of a four-digit
number. -/
def CauseGroup.covers (g : CauseGroup) (c : APIErrorCode) : Bool :=
  decide (1000 ≤ c ∧ c ≤ 9999) &&
  match g with
  | .generic => decide (decimalDigit c 2 = 4)
  | .providerEligibility => decide (decimalDigit c 2 = 0 ∧ decimalDigit c 1 = 1)
  | .replicationRules => decide (decimalDigit c 2 = 0 ∧ decimalDigit c 1 = 2)
  | .externalReservation => decide (decimalDigit c 2 = 0 ∧ decimalDigit c 1 = 3)

/-- The cause groups whose pattern the digits of `c` match. -/
def causeGroupsOf (c : APIErrorCode) : List CauseGroup :=
  [CauseGroup.generic, CauseGroup.providerEligibility, CauseGroup.replicationRules,
   CauseGroup.externalReservation].filter (fun g => g.covers c)

/-! ## Characters -/

/-- The UTF-8 bytes of a sequence of characters. -/
def utf8Bytes (cs : List Char) : GoString := cs.flatMap String.utf8EncodeChar

/-- The shortening with lengths and positions counted in characters, in the
words of the specification: at most 16 characters are returned unchanged, more
become the first 6 characters, `~`, and the last 8 characters. -/
def trimCidChars (cs : List Char) : List Char :=
  if cs.length ≤ 16 then cs
  else cs.take 6 ++ ['~'] ++ cs.drop (cs.length - 8)

/-- Nine times the two-byte character U+00E9: 9 characters, 18 bytes. -/
def nineAccents : List Char := List.replicate 9 (Char.ofNat 233)
/-! ## Records of the wire contract -/

/-- A Go slice: `none` is the nil slice, `some xs` a non-nil slice with the
elements `xs`. -/
abbrev Slice (α : Type) := Option (List α)

/-- Go `len` on a slice; the nil slice has length 0. -/
def sliceLen {α : Type} (s : Slice α) : Nat := (s.getD []).length

/-- Source struct `TenantReplicationCounts`. -/
structure TenantReplicationCounts where
  TenantID : Int
  MaxInFlightBytes : Int
  SpInFlightBytes : Int
  MaxTotal : Int
  MaxOrg : Int
  MaxCity : Int
  MaxCountry : Int
  MaxContinent : Int
  Total : Int
  InOrg : Int
  InCity : Int
  InCountry : Int
  InContinent : Int
  DealAlreadyExists : Bool
  deriving DecidableEq, Repr

/-- Source struct `Piece`. -/
structure Piece where
  PieceCid : GoString
  PaddedPieceSize : Int
  ClaimingTenants : Slice Int
  SampleRequestCmd : GoString
  Sources : Slice FilSourceDAG
  deriving DecidableEq, Repr

/-- Source struct `ProposalFailure`. -/
structure ProposalFailure where
  Tstamp : Time
  Err : GoString
  PieceCid : GoString
  DealCid : GoString
  deriving DecidableEq, Repr

/-- Source struct `DealProposal`. -/
structure DealProposal where
  DealCid : GoString
  HoursRemaining : Int
  PieceSize : Int
  PieceCid : GoString
  TenantID : Int
  StartTime : Time
  StartEpoch : Int
  ImportCMD : GoString
  Sources : Slice FilSourceDAG
  deriving DecidableEq, Repr

/-- Source struct `ResponsePendingProposals`. -/
structure ResponsePendingProposals where
  RecentFailures : Slice ProposalFailure
  PendingProposals : Slice DealProposal
  deriving DecidableEq, Repr

/-- Source struct `ResponseDealRequest`. -/
structure ResponseDealRequest where
  ReplicationCounts : Slice TenantReplicationCounts
  DealStartTime : Option Time
  DealStartEpoch : Option Int
  deriving DecidableEq, Repr

/-- Source type `ResponsePiecesEligible`, `[]*Piece`; a nil pointer is
`none`. -/
abbrev ResponsePiecesEligible := Slice (Option Piece)

/-- Source interface `ResponsePayload`: its only method `is()` is unexported
and implemented by exactly these three types. -/
inductive ResponsePayload where
  | pendingProposals (p : ResponsePendingProposals)
  | dealRequest (r : ResponseDealRequest)
  | piecesEligible (ps : ResponsePiecesEligible)
  deriving DecidableEq, Repr

/-- Source struct `ResponseEnvelope`.  The field `Response` is declared
`[]Piece`. -/
structure ResponseEnvelope where
  RequestID : GoString
  ResponseTime : Time
  ResponseStateEpoch : Int
  ResponseCode : Int
  ErrCode : Int
  ErrSlug : GoString
  ErrLines : Slice GoString
  InfoLines : Slice GoString
  ResponseEntries : Option Int
  Response : Slice Piece
  deriving DecidableEq, Repr

/-! ## JSON documents

`encoding/json` is a library of the Go distribution; the struct tags of the
source fix what it does with the records above.  A document is modelled as the
JSON value it denotes: writing a value as text and reading the text back is
not modelled.  All numbers of these records are integers. -/

/-- A JSON value.  A string carries the UTF-8 bytes of its text. -/
inductive JSON where
  | null
  | bool (b : Bool)
  | num (n : Int)
  | str (s : GoString)
  | arr (elems : List JSON)
  | obj (members : List (String × JSON))
  deriving Repr

/-- The value of the first member named `k` of a JSON object. -/
def JSON.member (k : String) : JSON → Option JSON
  | .obj ms => (ms.find? (fun kv => kv.1 == k)).map Prod.snd
  | _ => none

/-- The member names of a JSON object, in document order. -/
def JSON.keys : JSON → List String
  | .obj ms => ms.map Prod.fst
  | _ => []

/-- The number of elements of a JSON array; any other value, `null` included,
has none. -/
def JSON.arrayLen : JSON → Nat
  | .arr elems => elems.length
  | _ => 0

/-- The two `time.Time` methods the codec calls, on the text between the
quotes of the JSON string: `MarshalJSON` (`none` when it returns an error) and
`UnmarshalJSON`.  They belong to the Go distribution and are parameters
here. -/
structure TimeCodec where
  MarshalText : Time → Option GoString
  UnmarshalText : GoString → Option Time

/-- The two methods on the zero `Time` only, which Go writes as
`0001-01-01T00:00:00Z`. -/
def zeroTimeCodec : TimeCodec where
  MarshalText := fun t => if t = ⟨0, 0, none⟩ then some (goStr "0001-01-01T00:00:00Z") else none
  UnmarshalText := fun s => if s = goStr "0001-01-01T00:00:00Z" then some ⟨0, 0, none⟩ else none

/-- Whether reading the text written for `t` gives `t` again (vacuous when no
text is written). -/
def TimeCodec.reads (tc : TimeCodec) (t : Time) : Bool :=
  match tc.MarshalText t with
  | none => true
  | some text => decide (tc.UnmarshalText text = some t)

/-- Whether `UnmarshalJSON` accepts the text written for `t`, whatever time it
reads from it (vacuous when no text is written). -/
def TimeCodec.accepts (tc : TimeCodec) (t : Time) : Bool :=
  match tc.MarshalText t with
  | none => true
  | some text => (tc.UnmarshalText text).isSome

/-- The time `UnmarshalJSON` reads from the text written for `t`; `t` itself
when no text is written or the text is not accepted. -/
def TimeCodec.readBack (tc : TimeCodec) (t : Time) : Time :=
  match tc.MarshalText t with
  | none => t
  | some text => (tc.UnmarshalText text).getD t

/-- A continuation byte of UTF-8, `0x80..0xBF`. -/
def isContinuation (b : UInt8) : Bool := decide (0x80 ≤ b) && decide (b ≤ 0xBF)

/-- The length in bytes of the well-formed UTF-8 sequence at the head of `s`;
`none` when `s` is empty or does not start with one (`utf8.DecodeRune` then
returns `RuneError` with width at most 1). -/
def runeLen : GoString → Option Nat
  | [] => none
  | b0 :: rest =>
    if b0 < 0x80 then some 1
    else if 0xC2 ≤ b0 ∧ b0 ≤ 0xDF then
      match rest with
      | b1 :: _ => if isContinuation b1 then some 2 else none
      | _ => none
    else if 0xE0 ≤ b0 ∧ b0 ≤ 0xEF then
      match rest with
      | b1 :: b2 :: _ =>
        let lo : UInt8 := if b0 = 0xE0 then 0xA0 else 0x80
        let hi : UInt8 := if b0 = 0xED then 0x9F else 0xBF
        if lo ≤ b1 ∧ b1 ≤ hi ∧ isContinuation b2 then some 3 else none
      | _ => none
    else if 0xF0 ≤ b0 ∧ b0 ≤ 0xF4 then
      match rest with
      | b1 :: b2 :: b3 :: _ =>
        let lo : UInt8 := if b0 = 0xF0 then 0x90 else 0x80
        let hi : UInt8 := if b0 = 0xF4 then 0x8F else 0xBF
        if lo ≤ b1 ∧ b1 ≤ hi ∧ isContinuation b2 ∧ isContinuation b3 then some 4 else none
      | _ => none
    else none

/-- Worker of `toValidUTF8`: `pending` bytes of a sequence already accepted
are still to be copied. -/
def toValidUTF8From : Nat → GoString → GoString
  | _, [] => []
  | pending + 1, b :: rest => b :: toValidUTF8From pending rest
  | 0, b :: rest =>
    match runeLen (b :: rest) with
    | some n => b :: toValidUTF8From (n - 1) rest
    | none => 0xEF :: 0xBF :: 0xBD :: toValidUTF8From 0 rest

/-- The text the encoder writes for a Go string: the string coerced to valid
UTF-8, every invalid byte replaced by U+FFFD (bytes `EF BF BD`). -/
def toValidUTF8 (s : GoString) : GoString := toValidUTF8From 0 s

/-- One struct field as the encoder sees it: the member name of its tag, the
`omitempty` option, whether the value is empty (false, 0, a nil pointer, a
slice or string of length 0), and the encoding of the value (`none` when its
`MarshalJSON` fails). -/
structure FieldEnc where
  key : String
  omitempty : Bool
  isEmpty : Bool
  value : Option JSON

/-- The members of a struct: the fields in declaration order, an empty
`omitempty` field left out; an encoding error of a member is an error of the
struct. -/
def encodeFields : List FieldEnc → Option (List (String × JSON))
  | [] => some []
  | f :: fs =>
    if f.omitempty && f.isEmpty then encodeFields fs
    else do
      let v ← f.value
      let rest ← encodeFields fs
      pure ((f.key, v) :: rest)

/-- A struct as a JSON object. -/
def encodeStruct (fs : List FieldEnc) : Option JSON := (encodeFields fs).map JSON.obj

/-- The elements of a slice, in order; an error of an element is an error of
the slice. -/
def encodeElems {α : Type} (enc : α → Option JSON) : List α → Option (List JSON)
  | [] => some []
  | x :: xs => do
    let v ← enc x
    let rest ← encodeElems enc xs
    pure (v :: rest)

/-- A slice: `null` when nil, otherwise the array of its elements. -/
def encodeSlice {α : Type} (enc : α → Option JSON) : Slice α → Option JSON
  | none => some JSON.null
  | some xs => (encodeElems enc xs).map JSON.arr

/-- A pointer: `null` when nil, otherwise the value pointed to. -/
def encodePtr {α : Type} (enc : α → Option JSON) : Option α → Option JSON
  | none => some JSON.null
  | some x => enc x

/-- A string value. -/
def encodeString (s : GoString) : Option JSON := some (JSON.str (toValidUTF8 s))

/-- An integer value of any width. -/
def encodeInt (n : Int) : Option JSON := some (JSON.num n)

/-- A boolean value. -/
def encodeBool (b : Bool) : Option JSON := some (JSON.bool b)

/-- A `time.Time` value, through its `MarshalJSON`. -/
def encodeTime (tc : TimeCodec) (t : Time) : Option JSON := (tc.MarshalText t).map JSON.str

/-- JSON of a `FilSourceDAG`, by its struct tags. -/
def FilSourceDAG.MarshalJSON (tc : TimeCodec) (s : FilSourceDAG) : Option JSON :=
  encodeStruct [
    ⟨"source_type", false, false, encodeString s.SourceType⟩,
    ⟨"deal_id", false, false, encodeInt s.DealID⟩,
    ⟨"provider_id", false, false, encodeString s.ProviderID⟩,
    ⟨"original_payload_cid", false, false, encodeString s.OriginalPayloadCid⟩,
    ⟨"deal_expiration", false, false, encodeTime tc s.DealExpiration⟩,
    ⟨"is_filplus", false, false, encodeBool s.IsFilplus⟩,
    ⟨"sector_id", true, s.SectorID.isNone, encodePtr encodeString s.SectorID⟩,
    ⟨"sector_expiration", true, s.SectorExpiration.isNone,
      encodePtr (encodeTime tc) s.SectorExpiration⟩,
    ⟨"sample_retrieve_cmd", false, false, encodeString s.SampleRetrieveCmd⟩]

/-- JSON of a `Piece`, by its struct tags. -/
def Piece.MarshalJSON (tc : TimeCodec) (p : Piece) : Option JSON :=
  encodeStruct [
    ⟨"piece_cid", false, false, encodeString p.PieceCid⟩,
    ⟨"padded_piece_size", false, false, encodeInt p.PaddedPieceSize⟩,
    ⟨"tenants", false, false, encodeSlice encodeInt p.ClaimingTenants⟩,
    ⟨"sample_request_cmd", false, false, encodeString p.SampleRequestCmd⟩,
    ⟨"sources", true, sliceLen p.Sources == 0,
      encodeSlice (FilSourceDAG.MarshalJSON tc) p.Sources⟩]

/-- JSON of a `TenantReplicationCounts`, by its struct tags. -/
def TenantReplicationCounts.MarshalJSON (c : TenantReplicationCounts) : Option JSON :=
  encodeStruct [
    ⟨"tenant_id", false, false, encodeInt c.TenantID⟩,
    ⟨"tenant_max_in_flight_bytes", false, false, encodeInt c.MaxInFlightBytes⟩,
    ⟨"actual_in_flight_bytes", false, false, encodeInt c.SpInFlightBytes⟩,
    ⟨"tenant_max_total", false, false, encodeInt c.MaxTotal⟩,
    ⟨"tenant_max_per_org", false, false, encodeInt c.MaxOrg⟩,
    ⟨"tenant_max_per_city", false, false, encodeInt c.MaxCity⟩,
    ⟨"tenant_max_per_country", false, false, encodeInt c.MaxCountry⟩,
    ⟨"tenant_max_per_continent", false, false, encodeInt c.MaxContinent⟩,
    ⟨"actual_total", false, false, encodeInt c.Total⟩,
    ⟨"actual_within_org", false, false, encodeInt c.InOrg⟩,
    ⟨"actual_within_city", false, false, encodeInt c.InCity⟩,
    ⟨"actual_within_country", false, false, encodeInt c.InCountry⟩,
    ⟨"actual_within_continent", false, false, encodeInt c.InContinent⟩,
    ⟨"deal_already_exists", false, false, encodeBool c.DealAlreadyExists⟩]

/-- JSON of a `ResponseDealRequest`, by its struct tags. -/
def ResponseDealRequest.MarshalJSON (tc : TimeCodec) (r : ResponseDealRequest) : Option JSON :=
  encodeStruct [
    ⟨"tenant_replication_counts", false, false,
      encodeSlice TenantReplicationCounts.MarshalJSON r.ReplicationCounts⟩,
    ⟨"deal_start_time", true, r.DealStartTime.isNone, encodePtr (encodeTime tc) r.DealStartTime⟩,
    ⟨"deal_start_epoch", true, r.DealStartEpoch.isNone, encodePtr encodeInt r.DealStartEpoch⟩]

/-- JSON of a `ResponseEnvelope`, by its struct tags. -/
def ResponseEnvelope.MarshalJSON (tc : TimeCodec) (e : ResponseEnvelope) : Option JSON :=
  encodeStruct [
    ⟨"request_id", true, e.RequestID.length == 0, encodeString e.RequestID⟩,
    ⟨"response_timestamp", false, false, encodeTime tc e.ResponseTime⟩,
    ⟨"response_state_epoch", true, e.ResponseStateEpoch == 0, encodeInt e.ResponseStateEpoch⟩,
    ⟨"response_code", false, false, encodeInt e.ResponseCode⟩,
    ⟨"error_code", true, e.ErrCode == 0, encodeInt e.ErrCode⟩,
    ⟨"error_slug", true, e.ErrSlug.length == 0, encodeString e.ErrSlug⟩,
    ⟨"error_lines", true, sliceLen e.ErrLines == 0, encodeSlice encodeString e.ErrLines⟩,
    ⟨"info_lines", true, sliceLen e.InfoLines == 0, encodeSlice encodeString e.InfoLines⟩,
    ⟨"response_entries", true, e.ResponseEntries.isNone, encodePtr encodeInt e.ResponseEntries⟩,
    ⟨"response", false, false, encodeSlice (Piece.MarshalJSON tc) e.Response⟩]
/-! ### Decoding

`json.Unmarshal` into a new (zero) value.  The members of an object are taken
in document order; a member is matched to the field whose tag is its name,
exactly or under case folding, and a member that matches no field is skipped.
Every tag of these records is written in lower-case ASCII letters and `_`, so
a member matches a field exactly when its folded name is the tag.

A document in which two members of one object have the same folded name is
outside the model: the decoder then decodes the later value into what the
earlier one left, which for a slice depends on its backing array.  A result
`none` is a decoding error or such a document. -/

/-- Case folding of one character of a member name: the upper-case ASCII
letters, and the two other characters that fold to an ASCII letter, the Kelvin
sign U+212A and the long s U+017F. -/
def foldChar (c : Char) : Char :=
  if c = Char.ofNat 0x212A then 'k'
  else if c = Char.ofNat 0x17F then 's'
  else c.toLower

/-- A member name under case folding. -/
def foldName (k : String) : String := String.mk (k.data.map foldChar)

/-- No two members have the same folded name. -/
def noRepeat (ms : List (String × JSON)) : Bool :=
  decide ((ms.map (fun kv => foldName kv.1)).Nodup)

/-- The members of an object stored one after the other into the struct;
`setField` receives the folded name. -/
def decodeMembers {σ : Type} (setField : String → JSON → σ → Option σ) :
    List (String × JSON) → σ → Option σ
  | [], s => some s
  | (k, v) :: ms, s => (setField (foldName k) v s).bind (decodeMembers setField ms)

/-- An object decoded into a struct. -/
def decodeObject {σ : Type} (setField : String → JSON → σ → Option σ)
    (ms : List (String × JSON)) (s : σ) : Option σ :=
  if noRepeat ms then decodeMembers setField ms s else none

/-- Into a string field: `null` leaves it, a string is stored (the decoder too
replaces invalid UTF-8 by U+FFFD), anything else is an error. -/
def decodeString (cur : GoString) : JSON → Option GoString
  | .null => some cur
  | .str s => some (toValidUTF8 s)
  | _ => none

/-- Into an integer field with the range `lo..hi` of its type: `null` leaves
it, a number in range is stored, anything else is an error. -/
def decodeInt (lo hi : Int) (cur : Int) : JSON → Option Int
  | .null => some cur
  | .num n => if lo ≤ n ∧ n ≤ hi then some n else none
  | _ => none

/-- Into a boolean field. -/
def decodeBool (cur : Bool) : JSON → Option Bool
  | .null => some cur
  | .bool b => some b
  | _ => none

/-- Into a `time.Time` field, through its `UnmarshalJSON`, which ignores
`null`. -/
def decodeTime (tc : TimeCodec) (cur : Time) : JSON → Option Time
  | .null => some cur
  | .str s => tc.UnmarshalText s
  | _ => none

/-- Into a pointer field: `null` makes it nil, any other value is decoded into
the value pointed to, a new zero value when the pointer is nil. -/
def decodePtr {α : Type} (dec : α → JSON → Option α) (zero : α) (cur : Option α) :
    JSON → Option (Option α)
  | .null => some none
  | j => (dec (cur.getD zero) j).map some

/-- The elements of an array, each decoded into a new zero value. -/
def decodeElems {α : Type} (dec : α → JSON → Option α) (zero : α) :
    List JSON → Option (List α)
  | [] => some []
  | j :: js => do
    let x ← dec zero j
    let xs ← decodeElems dec zero js
    pure (x :: xs)

/-- Into a slice field of a new struct: `null` makes it nil, an array makes it
a non-nil slice of the decoded elements, anything else is an error. -/
def decodeSlice {α : Type} (dec : α → JSON → Option α) (zero : α) :
    JSON → Option (Slice α)
  | .null => some none
  | .arr js => (decodeElems dec zero js).map some
  | _ => none

/-- Range of `int64`, and of `int` on a 64-bit platform. -/
def minInt64 : Int := -(2 ^ 63)

/-- Range of `int64`, and of `int` on a 64-bit platform. -/
def maxInt64 : Int := 2 ^ 63 - 1

/-- Range of `uint64`. -/
def maxUint64 : Int := 2 ^ 64 - 1

/-- Range of `int16`. -/
def minInt16 : Int := -(2 ^ 15)

/-- Range of `int16`. -/
def maxInt16 : Int := 2 ^ 15 - 1

/-- The zero value of `FilSourceDAG`. -/
def FilSourceDAG.zero : FilSourceDAG := ⟨[], 0, [], [], ⟨0, 0, none⟩, false, none, none, []⟩

/-- One member stored into a `FilSourceDAG`; `k` is the folded name. -/
def FilSourceDAG.setField (tc : TimeCodec) (k : String) (v : JSON) (s : FilSourceDAG) :
    Option FilSourceDAG :=
  if k = "source_type" then
    (decodeString s.SourceType v).map (fun x => { s with SourceType := x })
  else if k = "deal_id" then
    (decodeInt minInt64 maxInt64 s.DealID v).map (fun x => { s with DealID := x })
  else if k = "provider_id" then
    (decodeString s.ProviderID v).map (fun x => { s with ProviderID := x })
  else if k = "original_payload_cid" then
    (decodeString s.OriginalPayloadCid v).map (fun x => { s with OriginalPayloadCid := x })
  else if k = "deal_expiration" then
    (decodeTime tc s.DealExpiration v).map (fun x => { s with DealExpiration := x })
  else if k = "is_filplus" then
    (decodeBool s.IsFilplus v).map (fun x => { s with IsFilplus := x })
  else if k = "sector_id" then
    (decodePtr decodeString [] s.SectorID v).map (fun x => { s with SectorID := x })
  else if k = "sector_expiration" then
    (decodePtr (decodeTime tc) ⟨0, 0, none⟩ s.SectorExpiration v).map
      (fun x => { s with SectorExpiration := x })
  else if k = "sample_retrieve_cmd" then
    (decodeString s.SampleRetrieveCmd v).map (fun x => { s with SampleRetrieveCmd := x })
  else some s

/-- A JSON value decoded into a `FilSourceDAG`. -/
def FilSourceDAG.decode (tc : TimeCodec) (cur : FilSourceDAG) : JSON → Option FilSourceDAG
  | .null => some cur
  | .obj ms => decodeObject (FilSourceDAG.setField tc) ms cur
  | _ => none

/-- The zero value of `Piece`. -/
def Piece.zero : Piece := ⟨[], 0, none, [], none⟩

/-- One member stored into a `Piece`; `k` is the folded name. -/
def Piece.setField (tc : TimeCodec) (k : String) (v : JSON) (p : Piece) : Option Piece :=
  if k = "piece_cid" then
    (decodeString p.PieceCid v).map (fun x => { p with PieceCid := x })
  else if k = "padded_piece_size" then
    (decodeInt 0 maxUint64 p.PaddedPieceSize v).map (fun x => { p with PaddedPieceSize := x })
  else if k = "tenants" then
    (decodeSlice (decodeInt minInt16 maxInt16) 0 v).map (fun x => { p with ClaimingTenants := x })
  else if k = "sample_request_cmd" then
    (decodeString p.SampleRequestCmd v).map (fun x => { p with SampleRequestCmd := x })
  else if k = "sources" then
    (decodeSlice (FilSourceDAG.decode tc) FilSourceDAG.zero v).map
      (fun x => { p with Sources := x })
  else some p

/-- A JSON value decoded into a `Piece`. -/
def Piece.decode (tc : TimeCodec) (cur : Piece) : JSON → Option Piece
  | .null => some cur
  | .obj ms => decodeObject (Piece.setField tc) ms cur
  | _ => none

/-- The zero value of `ResponseEnvelope`. -/
def ResponseEnvelope.zero : ResponseEnvelope :=
  ⟨[], ⟨0, 0, none⟩, 0, 0, 0, [], none, none, none, none⟩

/-- One member stored into a `ResponseEnvelope`; `k` is the folded name. -/
def ResponseEnvelope.setField (tc : TimeCodec) (k : String) (v : JSON) (e : ResponseEnvelope) :
    Option ResponseEnvelope :=
  if k = "request_id" then
    (decodeString e.RequestID v).map (fun x => { e with RequestID := x })
  else if k = "response_timestamp" then
    (decodeTime tc e.ResponseTime v).map (fun x => { e with ResponseTime := x })
  else if k = "response_state_epoch" then
    (decodeInt minInt64 maxInt64 e.ResponseStateEpoch v).map
      (fun x => { e with ResponseStateEpoch := x })
  else if k = "response_code" then
    (decodeInt minInt64 maxInt64 e.ResponseCode v).map (fun x => { e with ResponseCode := x })
  else if k = "error_code" then
    (decodeInt minInt64 maxInt64 e.ErrCode v).map (fun x => { e with ErrCode := x })
  else if k = "error_slug" then
    (decodeString e.ErrSlug v).map (fun x => { e with ErrSlug := x })
  else if k = "error_lines" then
    (decodeSlice decodeString [] v).map (fun x => { e with ErrLines := x })
  else if k = "info_lines" then
    (decodeSlice decodeString [] v).map (fun x => { e with InfoLines := x })
  else if k = "response_entries" then
    (decodePtr (decodeInt minInt64 maxInt64) 0 e.ResponseEntries v).map
      (fun x => { e with ResponseEntries := x })
  else if k = "response" then
    (decodeSlice (Piece.decode tc) Piece.zero v).map (fun x => { e with Response := x })
  else some e

/-- Go `json.Unmarshal(doc, &e)` for a new `var e ResponseEnvelope`. -/
def ResponseEnvelope.UnmarshalJSON (tc : TimeCodec) : JSON → Option ResponseEnvelope
  | .null => some ResponseEnvelope.zero
  | .obj ms => decodeObject (ResponseEnvelope.setField tc) ms ResponseEnvelope.zero
  | _ => none

/-! ### Values that survive the document -/

/-- Whether the encoder writes the string as it is, that is, whether it is
valid UTF-8. -/
def validUTF8 (s : GoString) : Bool := decide (toValidUTF8 s = s)

/-- Whether `n` is a value of the integer type with range `lo..hi`. -/
def inRange (lo hi n : Int) : Bool := decide (lo ≤ n ∧ n ≤ hi)

/-- A slice as it is read back when its field is `omitempty`: an empty slice
is left out of the document and read back as nil. -/
def dropEmpty {α : Type} : Slice α → Slice α
  | some [] => none
  | s => s

/-- A slice all of whose elements satisfy `p`. -/
def sliceAll {α : Type} (p : α → Bool) (s : Slice α) : Bool := (s.getD []).all p

/-- A `FilSourceDAG` whose strings are valid UTF-8, whose integers are values
of their types, and whose time texts are accepted when read. -/
def FilSourceDAG.portable (tc : TimeCodec) (s : FilSourceDAG) : Bool :=
  validUTF8 s.SourceType && inRange minInt64 maxInt64 s.DealID && validUTF8 s.ProviderID &&
  validUTF8 s.OriginalPayloadCid && tc.accepts s.DealExpiration &&
  s.SectorID.all validUTF8 && s.SectorExpiration.all tc.accepts &&
  validUTF8 s.SampleRetrieveCmd

/-- A `Piece` with the same three properties, sources included. -/
def Piece.portable (tc : TimeCodec) (p : Piece) : Bool :=
  validUTF8 p.PieceCid && inRange 0 maxUint64 p.PaddedPieceSize &&
  sliceAll (inRange minInt16 maxInt16) p.ClaimingTenants && validUTF8 p.SampleRequestCmd &&
  sliceAll (FilSourceDAG.portable tc) p.Sources

/-- A `ResponseEnvelope` with the same three properties, pieces included. -/
def ResponseEnvelope.portable (tc : TimeCodec) (e : ResponseEnvelope) : Bool :=
  validUTF8 e.RequestID && tc.accepts e.ResponseTime &&
  inRange minInt64 maxInt64 e.ResponseStateEpoch && inRange minInt64 maxInt64 e.ResponseCode &&
  inRange minInt64 maxInt64 e.ErrCode && validUTF8 e.ErrSlug &&
  sliceAll validUTF8 e.ErrLines && sliceAll validUTF8 e.InfoLines &&
  e.ResponseEntries.all (inRange minInt64 maxInt64) && sliceAll (Piece.portable tc) e.Response

/-- A `FilSourceDAG` as it is read back: every field as it was, the two times
as `time.Time` reads them from their text. -/
def FilSourceDAG.readBack (tc : TimeCodec) (s : FilSourceDAG) : FilSourceDAG :=
  { s with
    DealExpiration := tc.readBack s.DealExpiration
    SectorExpiration := s.SectorExpiration.map tc.readBack }

/-- A `Piece` as it is read back: its sources as they are read back, and an
empty `Sources` slice nil. -/
def Piece.readBack (tc : TimeCodec) (p : Piece) : Piece :=
  { p with Sources := dropEmpty (p.Sources.map (fun xs => xs.map (FilSourceDAG.readBack tc))) }

/-- A `ResponseEnvelope` as it is read back: every field as it was, except
that the times are as `time.Time` reads them from their text and an empty
`ErrLines`, `InfoLines` or `Sources` slice is nil. -/
def ResponseEnvelope.readBack (tc : TimeCodec) (e : ResponseEnvelope) : ResponseEnvelope :=
  { e with
    ResponseTime := tc.readBack e.ResponseTime
    ErrLines := dropEmpty e.ErrLines
    InfoLines := dropEmpty e.InfoLines
    Response := e.Response.map (fun ps => ps.map (Piece.readBack tc)) }

/-- Both times of a `FilSourceDAG` are read back as they were. -/
def FilSourceDAG.timesKept (tc : TimeCodec) (s : FilSourceDAG) : Bool :=
  tc.reads s.DealExpiration && s.SectorExpiration.all tc.reads

/-- Every time of the sources of a `Piece` is read back as it was. -/
def Piece.timesKept (tc : TimeCodec) (p : Piece) : Bool :=
  sliceAll (FilSourceDAG.timesKept tc) p.Sources

/-- Every time of a `ResponseEnvelope` is read back as it was. -/
def ResponseEnvelope.timesKept (tc : TimeCodec) (e : ResponseEnvelope) : Bool :=
  tc.reads e.ResponseTime && sliceAll (Piece.timesKept tc) e.Response

/-- A piece with one tenant and one source. -/
def examplePiece : Piece :=
  ⟨examplePieceCid, 34359738368, some [7], goStr "curl", some [{ exampleSource with
    SourceType := goStr "FilecoinDAG" }]⟩

/-- A successful envelope carrying one piece, counted by `ResponseEntries`. -/
def exampleEnvelope : ResponseEnvelope :=
  ⟨goStr "req-1", ⟨0, 0, none⟩, 2164489, 200, 0, [], none, some [goStr "ok"], some 1,
    some [examplePiece]⟩

/-- One accounting record. -/
def exampleCounts : TenantReplicationCounts :=
  ⟨7, 1099511627776, 34359738368, 10, 2, 2, 3, 5, 4, 1, 1, 2, 3, false⟩

/-- A deal-request payload with one accounting record and no deal start. -/
def exampleDealRequest : ResponseDealRequest := ⟨some [exampleCounts], none, none⟩

/-- An envelope whose `ResponseEntries` points to 5 beside a `Response` of one
piece. -/
def mismatchedEnvelope : ResponseEnvelope :=
  ⟨goStr "req-1", ⟨0, 0, none⟩, 0, 200, 0, [], none, none, some 5, some [examplePiece]⟩

/-! ## Auxiliary facts -/

theorem goSlice_prefix (cs : GoString) (k : Nat) (h : k ≤ cs.length) :
    goSlice cs 0 (k : Int) = some (cs.take k) := by
  have h' : (k : Int) ≤ (cs.length : Int) := by exact_mod_cast h
  simp [goSlice, len, h']

theorem goSlice_suffix (cs : GoString) (k : Nat) (h : k ≤ cs.length) :
    goSlice cs (len cs - (k : Int)) (len cs) = some (cs.drop (cs.length - k)) := by
  have h' : (k : Int) ≤ (cs.length : Int) := by exact_mod_cast h
  have e : ((cs.length : Int) - (k : Int)).toNat = cs.length - k := by omega
  simp only [goSlice, len]
  rw [if_pos (by omega), e]
  simp

theorem TrimCidString_short (cs : GoString) (h : cs.length ≤ 16) :
    TrimCidString cs = some cs := by
  have h' : (cs.length : Int) ≤ 16 := by exact_mod_cast h
  simp [TrimCidString, len, cidTrimPrefix, cidTrimSuffix, h']

theorem TrimCidString_long (cs : GoString) (h : 16 < cs.length) :
    TrimCidString cs = some (cs.take 6 ++ goStr "~" ++ cs.drop (cs.length - 8)) := by
  have h' : ¬ (len cs ≤ cidTrimPrefix + cidTrimSuffix + 2) := by
    simp only [len, cidTrimPrefix, cidTrimSuffix]; omega
  have h1 := goSlice_prefix cs 6 (by omega)
  have h2 := goSlice_suffix cs 8 (by omega)
  simp only [TrimCidString, if_neg h']
  simp only [cidTrimPrefix, cidTrimSuffix]
  simp only [Nat.cast_ofNat] at h1 h2
  rw [h1, h2]
  rfl

theorem trimmed_length (cs : GoString) (h : 16 < cs.length) :
    (cs.take 6 ++ goStr "~" ++ cs.drop (cs.length - 8)).length = 15 := by
  have : (goStr "~").length = 1 := by decide
  simp [this]
  omega

theorem Sprintf_cons_ne (c : UInt8) (rest : GoString) (args : List GoString) (hc : c ≠ 37) :
    Sprintf (c :: rest) args = (Sprintf rest args).map (fun out => c :: out) := by
  rw [Sprintf.eq_def]
  simp [hc]

theorem Sprintf_literal (l rest : GoString) (args : List GoString) (h : ∀ c ∈ l, c ≠ 37) :
    Sprintf (l ++ rest) args = (Sprintf rest args).map (fun out => l ++ out) := by
  induction l with
  | nil => simp
  | cons c l ih =>
    have hc : c ≠ 37 := h c (by simp)
    have hl : ∀ d ∈ l, d ≠ 37 := fun d hd => h d (by simp [hd])
    rw [List.cons_append, Sprintf_cons_ne _ _ _ hc, ih hl, Option.map_map]
    rfl

theorem Sprintf_verb_s (rest a : GoString) (args : List GoString) :
    Sprintf (37 :: 115 :: rest) (a :: args) = (Sprintf rest args).map (fun out => a ++ out) := by
  rw [Sprintf.eq_def]
  simp

theorem sampleRetrieveFormat_split :
    sampleRetrieveFormat =
      goStr "lotus client retrieve --provider " ++ (37 :: 115 ::
        (goStr " --maxPrice 0 --allow-local --car '" ++ (37 :: 115 ::
          (goStr "' $(pwd)/" ++ (37 :: 115 ::
            (goStr "__" ++ (37 :: 115 :: (goStr ".car" ++ [])))))))) := by
  decide

theorem Sprintf_sampleRetrieveFormat (a b c d : GoString) :
    Sprintf sampleRetrieveFormat [a, b, c, d] =
      some (goStr "lotus client retrieve --provider " ++ a ++
        goStr " --maxPrice 0 --allow-local --car '" ++ b ++
        goStr "' $(pwd)/" ++ c ++ goStr "__" ++ d ++ goStr ".car") := by
  rw [sampleRetrieveFormat_split]
  rw [Sprintf_literal _ _ _ (by decide), Sprintf_verb_s,
    Sprintf_literal _ _ _ (by decide), Sprintf_verb_s,
    Sprintf_literal _ _ _ (by decide), Sprintf_verb_s,
    Sprintf_literal _ _ _ (by decide), Sprintf_verb_s,
    Sprintf_literal _ _ _ (by decide)]
  simp [Sprintf]

theorem TrimCidString_eq_ref (cs : GoString) :
    TrimCidString cs = some (trimCidStringRef cs) := by
  by_cases h : cs.length ≤ 16
  · rw [TrimCidString_short cs h, trimCidStringRef, if_pos h]
  · rw [TrimCidString_long cs (by omega), trimCidStringRef, if_neg h]

theorem trimCidStringRef_length_le (cs : GoString) : (trimCidStringRef cs).length ≤ 16 := by
  by_cases h : cs.length ≤ 16
  · rw [trimCidStringRef, if_pos h]; exact h
  · rw [trimCidStringRef, if_neg h, trimmed_length cs (by omega)]; omega

theorem TrimCidString_twice (cs : GoString) :
    TrimCidString (trimCidStringRef cs) = some (trimCidStringRef cs) :=
  TrimCidString_short _ (trimCidStringRef_length_le cs)

theorem InitDerivedVals_invalid (s : FilSourceDAG) (pieceCid : GoString)
    (h : s.ProviderID = goStr "" ∨ s.OriginalPayloadCid = goStr "") :
    s.InitDerivedVals pieceCid =
      some ({ s with SourceType := goStr "FilecoinDAG" },
        some ⟨missingValuesFormat, { s with SourceType := goStr "FilecoinDAG" }⟩) := by
  simp only [FilSourceDAG.InitDerivedVals]
  rw [if_pos h]

theorem InitDerivedVals_valid (s : FilSourceDAG) (pieceCid : GoString)
    (h : ¬ (s.ProviderID = goStr "" ∨ s.OriginalPayloadCid = goStr "")) :
    s.InitDerivedVals pieceCid =
      some ({ s with
          SourceType := goStr "FilecoinDAG"
          SampleRetrieveCmd := retrieveCmdText s.ProviderID s.OriginalPayloadCid
            (trimCidStringRef pieceCid) (trimCidStringRef s.OriginalPayloadCid) },
        none) := by
  simp only [FilSourceDAG.InitDerivedVals]
  rw [if_neg h, TrimCidString_eq_ref, TrimCidString_eq_ref]
  simp only [Option.bind_eq_bind, Option.some_bind, Sprintf_sampleRetrieveFormat]
  rfl

theorem utf8EncodeChar_ascii (c : Char) (h : c.val ≤ 127) :
    String.utf8EncodeChar c = [c.val.toUInt8] := by
  simp [String.utf8EncodeChar, h]

theorem utf8Bytes_ascii (cs : List Char) (h : ∀ c ∈ cs, c.val ≤ 127) :
    utf8Bytes cs = cs.map (fun c => c.val.toUInt8) := by
  induction cs with
  | nil => rfl
  | cons c cs ih =>
    have hc := utf8EncodeChar_ascii c (h c (by simp))
    have ht := ih (fun d hd => h d (by simp [hd]))
    simp only [utf8Bytes] at ht ⊢
    simp [List.flatMap_cons, hc, ht]

theorem TrimCidString_ascii (cs : List Char) (h : ∀ c ∈ cs, c.val ≤ 127) :
    TrimCidString (utf8Bytes cs) = some (utf8Bytes (trimCidChars cs)) := by
  have hlen : (utf8Bytes cs).length = cs.length := by
    rw [utf8Bytes_ascii cs h, List.length_map]
  rw [TrimCidString_eq_ref, trimCidStringRef, trimCidChars, hlen]
  by_cases hs : cs.length ≤ 16
  · rw [if_pos hs, if_pos hs]
  · rw [if_neg hs, if_neg hs]
    have h1 : ∀ c ∈ cs.take 6, c.val ≤ 127 := fun c hc => h c (List.mem_of_mem_take hc)
    have h2 : ∀ c ∈ cs.drop (cs.length - 8), c.val ≤ 127 :=
      fun c hc => h c (List.mem_of_mem_drop hc)
    have e : utf8Bytes (cs.take 6 ++ ['~'] ++ cs.drop (cs.length - 8)) =
        utf8Bytes (cs.take 6) ++ goStr "~" ++ utf8Bytes (cs.drop (cs.length - 8)) := by
      simp only [utf8Bytes, List.flatMap_append]
      rfl
    rw [e, utf8Bytes_ascii _ h1, utf8Bytes_ascii _ h2, utf8Bytes_ascii cs h,
      List.map_take, List.map_drop]
theorem decodeString_encodeString (cur s : GoString) (h : validUTF8 s = true) (j : JSON)
    (hj : encodeString s = some j) : decodeString cur j = some s := by
  simp only [validUTF8, decide_eq_true_eq] at h
  simp only [encodeString, Option.some.injEq] at hj
  subst hj
  simp [decodeString, h]

theorem decodeInt_encodeInt (lo hi cur n : Int) (h : inRange lo hi n = true) (j : JSON)
    (hj : encodeInt n = some j) : decodeInt lo hi cur j = some n := by
  simp only [inRange, decide_eq_true_eq] at h
  simp only [encodeInt, Option.some.injEq] at hj
  subst hj
  simp [decodeInt, h]

theorem decodeBool_encodeBool (cur b : Bool) (j : JSON)
    (hj : encodeBool b = some j) : decodeBool cur j = some b := by
  simp only [encodeBool, Option.some.injEq] at hj
  subst hj
  rfl

theorem decodeTime_encodeTime (tc : TimeCodec) (cur t : Time) (h : tc.accepts t = true)
    (j : JSON) (hj : encodeTime tc t = some j) :
    decodeTime tc cur j = some (tc.readBack t) := by
  simp only [encodeTime, Option.map_eq_some'] at hj
  obtain ⟨text, ht, rfl⟩ := hj
  simp only [TimeCodec.accepts, ht] at h
  obtain ⟨t1, ht1⟩ := Option.isSome_iff_exists.mp h
  simp [decodeTime, TimeCodec.readBack, ht, ht1]

theorem decodeElems_encodeElems {α : Type} (enc : α → Option JSON)
    (dec : α → JSON → Option α) (zero : α) (rb : α → α) (xs : List α)
    (h : ∀ x ∈ xs, ∀ j, enc x = some j → dec zero j = some (rb x)) :
    ∀ js, encodeElems enc xs = some js → decodeElems dec zero js = some (xs.map rb) := by
  induction xs with
  | nil =>
    intro js hjs
    simp only [encodeElems, Option.some.injEq] at hjs
    subst hjs
    rfl
  | cons x xs ih =>
    intro js hjs
    simp only [encodeElems, Option.bind_eq_bind, Option.bind_eq_some, Option.pure_def,
      Option.some.injEq] at hjs
    obtain ⟨v, hv, rest, hrest, rfl⟩ := hjs
    have h1 := h x (by simp) v hv
    have h2 := ih (fun y hy => h y (by simp [hy])) rest hrest
    simp [decodeElems, h1, h2]

theorem decodeSlice_encodeSlice {α : Type} (enc : α → Option JSON)
    (dec : α → JSON → Option α) (zero : α) (rb : α → α) (s : Slice α)
    (h : ∀ x ∈ s.getD [], ∀ j, enc x = some j → dec zero j = some (rb x))
    (j : JSON) (hj : encodeSlice enc s = some j) :
    decodeSlice dec zero j = some (s.map (fun xs => xs.map rb)) := by
  cases s with
  | none =>
    simp only [encodeSlice, Option.some.injEq] at hj
    subst hj
    rfl
  | some xs =>
    simp only [encodeSlice, Option.map_eq_some'] at hj
    obtain ⟨js, hjs, rfl⟩ := hj
    have := decodeElems_encodeElems enc dec zero rb xs h js hjs
    simp [decodeSlice, this]

theorem sliceLen_map {α : Type} (f : α → α) (s : Slice α) :
    sliceLen (s.map (fun xs => xs.map f)) = sliceLen s := by
  cases s with
  | none => rfl
  | some xs => simp [sliceLen]

theorem dropEmpty_of_len_ne {α : Type} (s : Slice α) (h : ¬ sliceLen s = 0) :
    dropEmpty s = s := by
  cases s with
  | none => rfl
  | some xs =>
    cases xs with
    | nil => simp [sliceLen] at h
    | cons x xs => rfl

theorem dropEmpty_of_len_eq {α : Type} (s : Slice α) (h : sliceLen s = 0) :
    dropEmpty s = none := by
  cases s with
  | none => rfl
  | some xs =>
    cases xs with
    | nil => rfl
    | cons x xs => simp [sliceLen] at h

theorem decodeSlice_encodeSlice_same {α : Type} (enc : α → Option JSON)
    (dec : α → JSON → Option α) (zero : α) (s : Slice α)
    (h : ∀ x ∈ s.getD [], ∀ j, enc x = some j → dec zero j = some x)
    (j : JSON) (hj : encodeSlice enc s = some j) :
    decodeSlice dec zero j = some s := by
  have := decodeSlice_encodeSlice enc dec zero id s h j hj
  simpa using this

theorem sliceAll_mem {α : Type} (p : α → Bool) (s : Slice α) (h : sliceAll p s = true) :
    ∀ x ∈ s.getD [], p x = true := by
  simpa [sliceAll, List.all_eq_true] using h

theorem encodeFields_keys_sublist (fs : List FieldEnc) :
    ∀ ms, encodeFields fs = some ms →
      (ms.map Prod.fst).Sublist (fs.map FieldEnc.key) := by
  induction fs with
  | nil =>
    intro ms h
    simp only [encodeFields, Option.some.injEq] at h
    subst h
    exact List.Sublist.slnil
  | cons f fs ih =>
    intro ms h
    rw [encodeFields] at h
    by_cases hc : (f.omitempty && f.isEmpty) = true
    · rw [if_pos hc] at h
      exact List.Sublist.cons _ (ih ms h)
    · rw [if_neg hc] at h
      simp only [Option.bind_eq_bind, Option.bind_eq_some, Option.pure_def,
        Option.some.injEq] at h
      obtain ⟨v, _, rest, hrest, rfl⟩ := h
      exact List.Sublist.cons₂ _ (ih rest hrest)

theorem noRepeat_of_encodeFields (fs : List FieldEnc) (ms : List (String × JSON))
    (h : encodeFields fs = some ms) (hk : ((fs.map FieldEnc.key).map foldName).Nodup) :
    noRepeat ms = true := by
  have hsub := (encodeFields_keys_sublist fs ms h).map foldName
  have hnd := hk.sublist hsub
  simp only [noRepeat, decide_eq_true_eq]
  simpa [List.map_map] using hnd

theorem decodeObject_step {σ : Type} (setField : String → JSON → σ → Option σ)
    (f : FieldEnc) (fs : List FieldEnc) (ms : List (String × JSON)) (st st1 : σ)
    (henc : encodeFields (f :: fs) = some ms)
    (hk : foldName f.key = f.key)
    (hskip : (f.omitempty && f.isEmpty) = true → st1 = st)
    (hemit : (f.omitempty && f.isEmpty) = false →
      ∀ v, f.value = some v → setField f.key v st = some st1) :
    ∃ rest, encodeFields fs = some rest ∧
      decodeMembers setField ms st = decodeMembers setField rest st1 := by
  by_cases hc : (f.omitempty && f.isEmpty) = true
  · rw [encodeFields, if_pos hc] at henc
    exact ⟨ms, henc, by rw [hskip hc]⟩
  · rw [encodeFields, if_neg hc] at henc
    simp only [Option.bind_eq_bind, Option.bind_eq_some, Option.pure_def,
      Option.some.injEq] at henc
    obtain ⟨v, hv, rest, hrest, rfl⟩ := henc
    refine ⟨rest, hrest, ?_⟩
    have hc' : (f.omitempty && f.isEmpty) = false := by simpa using hc
    simp [decodeMembers, hk, hemit hc' v hv]

theorem decodeObject_done {σ : Type} (setField : String → JSON → σ → Option σ)
    (ms : List (String × JSON)) (st : σ) (henc : encodeFields [] = some ms) :
    decodeMembers setField ms st = some st := by
  simp only [encodeFields, Option.some.injEq] at henc
  subst henc
  rfl

theorem decodePtr_some {α : Type} (dec : α → JSON → Option α) (zero x : α) (j : JSON)
    (hne : j ≠ JSON.null) (hd : dec zero j = some x) :
    decodePtr dec zero none j = some (some x) := by
  cases j with
  | null => exact absurd rfl hne
  | bool b => simp [decodePtr, hd]
  | num n => simp [decodePtr, hd]
  | str t => simp [decodePtr, hd]
  | arr js => simp [decodePtr, hd]
  | obj ms => simp [decodePtr, hd]

theorem encodeString_ne_null (s : GoString) (j : JSON) (hj : encodeString s = some j) :
    j ≠ JSON.null := by
  simp only [encodeString, Option.some.injEq] at hj
  subst hj
  simp

theorem encodeInt_ne_null (n : Int) (j : JSON) (hj : encodeInt n = some j) :
    j ≠ JSON.null := by
  simp only [encodeInt, Option.some.injEq] at hj
  subst hj
  simp

theorem encodeTime_ne_null (tc : TimeCodec) (t : Time) (j : JSON)
    (hj : encodeTime tc t = some j) : j ≠ JSON.null := by
  simp only [encodeTime, Option.map_eq_some'] at hj
  obtain ⟨text, _, rfl⟩ := hj
  simp

theorem FilSourceDAG_roundTrip (tc : TimeCodec) (s : FilSourceDAG)
    (hp : s.portable tc = true) (j : JSON) (hj : s.MarshalJSON tc = some j) :
    FilSourceDAG.decode tc FilSourceDAG.zero j = some (s.readBack tc) := by
  obtain ⟨st, did, pid, opc, dexp, fp, sid, sexp, cmd⟩ := s
  simp only [FilSourceDAG.portable, Bool.and_eq_true] at hp
  obtain ⟨⟨⟨⟨⟨⟨⟨h1, h2⟩, h3⟩, h4⟩, h5⟩, h6⟩, h7⟩, h8⟩ := hp
  simp only [FilSourceDAG.MarshalJSON, encodeStruct, Option.map_eq_some'] at hj
  obtain ⟨ms, hms, rfl⟩ := hj
  simp only [FilSourceDAG.decode, decodeObject]
  rw [if_pos (noRepeat_of_encodeFields _ _ hms
    (show (["source_type", "deal_id", "provider_id", "original_payload_cid",
      "deal_expiration", "is_filplus", "sector_id", "sector_expiration",
      "sample_retrieve_cmd"].map foldName).Nodup by decide))]
  obtain ⟨ms1, hms1, e1⟩ := decodeObject_step (FilSourceDAG.setField tc) _ _ ms
    FilSourceDAG.zero
    ⟨st, 0, [], [], ⟨0, 0, none⟩, false, none, none, []⟩
    hms (show foldName "source_type" = "source_type" by decide)
    (by simp)
    (fun _ v hv => by
      simp [FilSourceDAG.setField, FilSourceDAG.zero, decodeString_encodeString _ _ h1 v hv])
  obtain ⟨ms2, hms2, e2⟩ := decodeObject_step (FilSourceDAG.setField tc) _ _ ms1
    ⟨st, 0, [], [], ⟨0, 0, none⟩, false, none, none, []⟩
    ⟨st, did, [], [], ⟨0, 0, none⟩, false, none, none, []⟩
    hms1 (show foldName "deal_id" = "deal_id" by decide)
    (by simp)
    (fun _ v hv => by
      simp [FilSourceDAG.setField, decodeInt_encodeInt _ _ _ _ h2 v hv])
  obtain ⟨ms3, hms3, e3⟩ := decodeObject_step (FilSourceDAG.setField tc) _ _ ms2
    ⟨st, did, [], [], ⟨0, 0, none⟩, false, none, none, []⟩
    ⟨st, did, pid, [], ⟨0, 0, none⟩, false, none, none, []⟩
    hms2 (show foldName "provider_id" = "provider_id" by decide)
    (by simp)
    (fun _ v hv => by
      simp [FilSourceDAG.setField, decodeString_encodeString _ _ h3 v hv])
  obtain ⟨ms4, hms4, e4⟩ := decodeObject_step (FilSourceDAG.setField tc) _ _ ms3
    ⟨st, did, pid, [], ⟨0, 0, none⟩, false, none, none, []⟩
    ⟨st, did, pid, opc, ⟨0, 0, none⟩, false, none, none, []⟩
    hms3 (show foldName "original_payload_cid" = "original_payload_cid" by decide)
    (by simp)
    (fun _ v hv => by
      simp [FilSourceDAG.setField, decodeString_encodeString _ _ h4 v hv])
  obtain ⟨ms5, hms5, e5⟩ := decodeObject_step (FilSourceDAG.setField tc) _ _ ms4
    ⟨st, did, pid, opc, ⟨0, 0, none⟩, false, none, none, []⟩
    ⟨st, did, pid, opc, (tc.readBack dexp), false, none, none, []⟩
    hms4 (show foldName "deal_expiration" = "deal_expiration" by decide)
    (by simp)
    (fun _ v hv => by
      simp [FilSourceDAG.setField, decodeTime_encodeTime _ _ _ h5 v hv])
  obtain ⟨ms6, hms6, e6⟩ := decodeObject_step (FilSourceDAG.setField tc) _ _ ms5
    ⟨st, did, pid, opc, (tc.readBack dexp), false, none, none, []⟩
    ⟨st, did, pid, opc, (tc.readBack dexp), fp, none, none, []⟩
    hms5 (show foldName "is_filplus" = "is_filplus" by decide)
    (by simp)
    (fun _ v hv => by
      simp [FilSourceDAG.setField, decodeBool_encodeBool _ _ v hv])
  obtain ⟨ms7, hms7, e7⟩ := decodeObject_step (FilSourceDAG.setField tc) _ _ ms6
    ⟨st, did, pid, opc, (tc.readBack dexp), fp, none, none, []⟩
    ⟨st, did, pid, opc, (tc.readBack dexp), fp, sid, none, []⟩
    hms6 (show foldName "sector_id" = "sector_id" by decide)
    (by
      intro hc
      cases sid with
      | none => rfl
      | some x => simp at hc)
    (fun hc v hv => by
      cases sid with
      | none => simp at hc
      | some x =>
        simp only [encodePtr] at hv
        simp only [Option.all_some] at h6
        simp [FilSourceDAG.setField, decodePtr_some decodeString [] x v
          (encodeString_ne_null x v hv) (decodeString_encodeString _ _ h6 v hv)])
  obtain ⟨ms8, hms8, e8⟩ := decodeObject_step (FilSourceDAG.setField tc) _ _ ms7
    ⟨st, did, pid, opc, (tc.readBack dexp), fp, sid, none, []⟩
    ⟨st, did, pid, opc, (tc.readBack dexp), fp, sid, (sexp.map tc.readBack), []⟩
    hms7 (show foldName "sector_expiration" = "sector_expiration" by decide)
    (by
      intro hc
      cases sexp with
      | none => rfl
      | some x => simp at hc)
    (fun hc v hv => by
      cases sexp with
      | none => simp at hc
      | some x =>
        simp only [encodePtr] at hv
        simp only [Option.all_some] at h7
        simp [FilSourceDAG.setField, decodePtr_some (decodeTime tc) ⟨0, 0, none⟩ (tc.readBack x) v
          (encodeTime_ne_null tc x v hv) (decodeTime_encodeTime _ _ _ h7 v hv)])
  obtain ⟨ms9, hms9, e9⟩ := decodeObject_step (FilSourceDAG.setField tc) _ _ ms8
    ⟨st, did, pid, opc, (tc.readBack dexp), fp, sid, (sexp.map tc.readBack), []⟩
    ⟨st, did, pid, opc, (tc.readBack dexp), fp, sid, (sexp.map tc.readBack), cmd⟩
    hms8 (show foldName "sample_retrieve_cmd" = "sample_retrieve_cmd" by decide)
    (by simp)
    (fun _ v hv => by
      simp [FilSourceDAG.setField, decodeString_encodeString _ _ h8 v hv])
  rw [e1, e2, e3, e4, e5, e6, e7, e8, e9]
  exact decodeObject_done _ _ _ hms9

theorem Piece_roundTrip (tc : TimeCodec) (p : Piece)
    (hp : p.portable tc = true) (j : JSON) (hj : p.MarshalJSON tc = some j) :
    Piece.decode tc Piece.zero j = some (p.readBack tc) := by
  obtain ⟨cid, size, tenants, cmd, src⟩ := p
  simp only [Piece.portable, Bool.and_eq_true] at hp
  obtain ⟨⟨⟨⟨h1, h2⟩, h3⟩, h4⟩, h5⟩ := hp
  simp only [Piece.MarshalJSON, encodeStruct, Option.map_eq_some'] at hj
  obtain ⟨ms, hms, rfl⟩ := hj
  simp only [Piece.decode, decodeObject]
  rw [if_pos (noRepeat_of_encodeFields _ _ hms
    (show (["piece_cid", "padded_piece_size", "tenants", "sample_request_cmd", "sources"].map foldName).Nodup by decide))]
  obtain ⟨ms1, hms1, e1⟩ := decodeObject_step (Piece.setField tc) _ _ ms
    Piece.zero
    ⟨cid, 0, none, [], none⟩
    hms (show foldName "piece_cid" = "piece_cid" by decide)
    (by simp)
    (fun _ v hv => by
      simp [Piece.setField, Piece.zero, decodeString_encodeString _ _ h1 v hv])
  obtain ⟨ms2, hms2, e2⟩ := decodeObject_step (Piece.setField tc) _ _ ms1
    ⟨cid, 0, none, [], none⟩
    ⟨cid, size, none, [], none⟩
    hms1 (show foldName "padded_piece_size" = "padded_piece_size" by decide)
    (by simp)
    (fun _ v hv => by
      simp [Piece.setField, decodeInt_encodeInt _ _ _ _ h2 v hv])
  obtain ⟨ms3, hms3, e3⟩ := decodeObject_step (Piece.setField tc) _ _ ms2
    ⟨cid, size, none, [], none⟩
    ⟨cid, size, tenants, [], none⟩
    hms2 (show foldName "tenants" = "tenants" by decide)
    (by simp)
    (fun _ v hv => by
      simp [Piece.setField, decodeSlice_encodeSlice_same encodeInt (decodeInt minInt16 maxInt16) 0 tenants
        (fun x hx j hj => decodeInt_encodeInt _ _ _ _ (sliceAll_mem _ _ h3 x hx) j hj) v hv])
  obtain ⟨ms4, hms4, e4⟩ := decodeObject_step (Piece.setField tc) _ _ ms3
    ⟨cid, size, tenants, [], none⟩
    ⟨cid, size, tenants, cmd, none⟩
    hms3 (show foldName "sample_request_cmd" = "sample_request_cmd" by decide)
    (by simp)
    (fun _ v hv => by
      simp [Piece.setField, decodeString_encodeString _ _ h4 v hv])
  obtain ⟨ms5, hms5, e5⟩ := decodeObject_step (Piece.setField tc) _ _ ms4
    ⟨cid, size, tenants, cmd, none⟩
    ⟨cid, size, tenants, cmd,
      (dropEmpty (src.map (fun xs => xs.map (FilSourceDAG.readBack tc))))⟩
    hms4 (show foldName "sources" = "sources" by decide)
    (by
      intro hc
      simp at hc
      rw [dropEmpty_of_len_eq _ (by rw [sliceLen_map]; exact hc)])
    (fun hc v hv => by
      simp at hc
      rw [dropEmpty_of_len_ne _ (by rw [sliceLen_map]; exact hc)]
      simp [Piece.setField, decodeSlice_encodeSlice
        (FilSourceDAG.MarshalJSON tc) (FilSourceDAG.decode tc) FilSourceDAG.zero
        (FilSourceDAG.readBack tc) src
        (fun x hx j hj => FilSourceDAG_roundTrip tc x (sliceAll_mem _ _ h5 x hx) j hj) v hv])
  rw [e1, e2, e3, e4, e5]
  exact decodeObject_done _ _ _ hms5

theorem ResponseEnvelope_roundTrip (tc : TimeCodec) (e : ResponseEnvelope)
    (hp : e.portable tc = true) (j : JSON) (hj : e.MarshalJSON tc = some j) :
    ResponseEnvelope.UnmarshalJSON tc j = some (e.readBack tc) := by
  obtain ⟨rid, rt, ep, rc, ec, slug, el, il, re, resp⟩ := e
  simp only [ResponseEnvelope.portable, Bool.and_eq_true] at hp
  obtain ⟨⟨⟨⟨⟨⟨⟨⟨⟨h1, h2⟩, h3⟩, h4⟩, h5⟩, h6⟩, h7⟩, h8⟩, h9⟩, h10⟩ := hp
  simp only [ResponseEnvelope.MarshalJSON, encodeStruct, Option.map_eq_some'] at hj
  obtain ⟨ms, hms, rfl⟩ := hj
  simp only [ResponseEnvelope.UnmarshalJSON, decodeObject]
  rw [if_pos (noRepeat_of_encodeFields _ _ hms
    (show (["request_id", "response_timestamp", "response_state_epoch",
      "response_code", "error_code", "error_slug", "error_lines", "info_lines",
      "response_entries", "response"].map foldName).Nodup by decide))]
  obtain ⟨ms1, hms1, e1⟩ := decodeObject_step (ResponseEnvelope.setField tc) _ _ ms
    ResponseEnvelope.zero
    ⟨rid, ⟨0, 0, none⟩, 0, 0, 0, [], none, none, none, none⟩
    hms (show foldName "request_id" = "request_id" by decide)
    (by
      intro hc
      simp at hc
      simp [hc, ResponseEnvelope.zero])
    (fun _ v hv => by
      simp [ResponseEnvelope.setField, ResponseEnvelope.zero, decodeString_encodeString _ _ h1 v hv])
  obtain ⟨ms2, hms2, e2⟩ := decodeObject_step (ResponseEnvelope.setField tc) _ _ ms1
    ⟨rid, ⟨0, 0, none⟩, 0, 0, 0, [], none, none, none, none⟩
    ⟨rid, (tc.readBack rt), 0, 0, 0, [], none, none, none, none⟩
    hms1 (show foldName "response_timestamp" = "response_timestamp" by decide)
    (by simp)
    (fun _ v hv => by
      simp [ResponseEnvelope.setField, decodeTime_encodeTime _ _ _ h2 v hv])
  obtain ⟨ms3, hms3, e3⟩ := decodeObject_step (ResponseEnvelope.setField tc) _ _ ms2
    ⟨rid, (tc.readBack rt), 0, 0, 0, [], none, none, none, none⟩
    ⟨rid, (tc.readBack rt), ep, 0, 0, [], none, none, none, none⟩
    hms2 (show foldName "response_state_epoch" = "response_state_epoch" by decide)
    (by
      intro hc
      simp at hc
      simp [hc])
    (fun _ v hv => by
      simp [ResponseEnvelope.setField, decodeInt_encodeInt _ _ _ _ h3 v hv])
  obtain ⟨ms4, hms4, e4⟩ := decodeObject_step (ResponseEnvelope.setField tc) _ _ ms3
    ⟨rid, (tc.readBack rt), ep, 0, 0, [], none, none, none, none⟩
    ⟨rid, (tc.readBack rt), ep, rc, 0, [], none, none, none, none⟩
    hms3 (show foldName "response_code" = "response_code" by decide)
    (by simp)
    (fun _ v hv => by
      simp [ResponseEnvelope.setField, decodeInt_encodeInt _ _ _ _ h4 v hv])
  obtain ⟨ms5, hms5, e5⟩ := decodeObject_step (ResponseEnvelope.setField tc) _ _ ms4
    ⟨rid, (tc.readBack rt), ep, rc, 0, [], none, none, none, none⟩
    ⟨rid, (tc.readBack rt), ep, rc, ec, [], none, none, none, none⟩
    hms4 (show foldName "error_code" = "error_code" by decide)
    (by
      intro hc
      simp at hc
      simp [hc])
    (fun _ v hv => by
      simp [ResponseEnvelope.setField, decodeInt_encodeInt _ _ _ _ h5 v hv])
  obtain ⟨ms6, hms6, e6⟩ := decodeObject_step (ResponseEnvelope.setField tc) _ _ ms5
    ⟨rid, (tc.readBack rt), ep, rc, ec, [], none, none, none, none⟩
    ⟨rid, (tc.readBack rt), ep, rc, ec, slug, none, none, none, none⟩
    hms5 (show foldName "error_slug" = "error_slug" by decide)
    (by
      intro hc
      simp at hc
      simp [hc])
    (fun _ v hv => by
      simp [ResponseEnvelope.setField, decodeString_encodeString _ _ h6 v hv])
  obtain ⟨ms7, hms7, e7⟩ := decodeObject_step (ResponseEnvelope.setField tc) _ _ ms6
    ⟨rid, (tc.readBack rt), ep, rc, ec, slug, none, none, none, none⟩
    ⟨rid, (tc.readBack rt), ep, rc, ec, slug, (dropEmpty el), none, none, none⟩
    hms6 (show foldName "error_lines" = "error_lines" by decide)
    (by
      intro hc
      simp at hc
      rw [dropEmpty_of_len_eq _ hc])
    (fun hc v hv => by
      simp at hc
      rw [dropEmpty_of_len_ne _ hc]
      simp [ResponseEnvelope.setField, decodeSlice_encodeSlice_same encodeString decodeString [] el
        (fun x hx j hj => decodeString_encodeString _ _ (sliceAll_mem _ _ h7 x hx) j hj) v hv])
  obtain ⟨ms8, hms8, e8⟩ := decodeObject_step (ResponseEnvelope.setField tc) _ _ ms7
    ⟨rid, (tc.readBack rt), ep, rc, ec, slug, (dropEmpty el), none, none, none⟩
    ⟨rid, (tc.readBack rt), ep, rc, ec, slug, (dropEmpty el), (dropEmpty il), none, none⟩
    hms7 (show foldName "info_lines" = "info_lines" by decide)
    (by
      intro hc
      simp at hc
      rw [dropEmpty_of_len_eq _ hc])
    (fun hc v hv => by
      simp at hc
      rw [dropEmpty_of_len_ne _ hc]
      simp [ResponseEnvelope.setField, decodeSlice_encodeSlice_same encodeString decodeString [] il
        (fun x hx j hj => decodeString_encodeString _ _ (sliceAll_mem _ _ h8 x hx) j hj) v hv])
  obtain ⟨ms9, hms9, e9⟩ := decodeObject_step (ResponseEnvelope.setField tc) _ _ ms8
    ⟨rid, (tc.readBack rt), ep, rc, ec, slug, (dropEmpty el), (dropEmpty il), none, none⟩
    ⟨rid, (tc.readBack rt), ep, rc, ec, slug, (dropEmpty el), (dropEmpty il), re, none⟩
    hms8 (show foldName "response_entries" = "response_entries" by decide)
    (by
      intro hc
      cases re with
      | none => rfl
      | some x => simp at hc)
    (fun hc v hv => by
      cases re with
      | none => simp at hc
      | some x =>
        simp only [encodePtr] at hv
        simp only [Option.all_some] at h9
        simp [ResponseEnvelope.setField, decodePtr_some (decodeInt minInt64 maxInt64) 0 x v
          (encodeInt_ne_null x v hv) (decodeInt_encodeInt _ _ _ _ h9 v hv)])
  obtain ⟨ms10, hms10, e10⟩ := decodeObject_step (ResponseEnvelope.setField tc) _ _ ms9
    ⟨rid, (tc.readBack rt), ep, rc, ec, slug, (dropEmpty el), (dropEmpty il), re, none⟩
    ⟨rid, (tc.readBack rt), ep, rc, ec, slug, (dropEmpty el), (dropEmpty il), re,
      (resp.map (fun ps => ps.map (Piece.readBack tc)))⟩
    hms9 (show foldName "response" = "response" by decide)
    (by simp)
    (fun _ v hv => by
      simp [ResponseEnvelope.setField, decodeSlice_encodeSlice
        (Piece.MarshalJSON tc) (Piece.decode tc) Piece.zero
        (Piece.readBack tc) resp
        (fun x hx j hj => Piece_roundTrip tc x (sliceAll_mem _ _ h10 x hx) j hj) v hv])
  rw [e1, e2, e3, e4, e5, e6, e7, e8, e9, e10]
  exact decodeObject_done _ _ _ hms10

theorem encodeSlice_arrayLen {α : Type} (enc : α → Option JSON) (s : Slice α) (v : JSON)
    (h : encodeSlice enc s = some v) : v.arrayLen = sliceLen s := by
  cases s with
  | none =>
    simp only [encodeSlice, Option.some.injEq] at h
    subst h
    rfl
  | some xs =>
    simp only [encodeSlice, Option.map_eq_some'] at h
    obtain ⟨js, hjs, rfl⟩ := h
    have hl : ∀ (ys : List α) (ks : List JSON), encodeElems enc ys = some ks →
        ks.length = ys.length := by
      intro ys
      induction ys with
      | nil =>
        intro ks hks
        simp only [encodeElems, Option.some.injEq] at hks
        subst hks
        rfl
      | cons y ys ih =>
        intro ks hks
        simp only [encodeElems, Option.bind_eq_bind, Option.bind_eq_some, Option.pure_def,
          Option.some.injEq] at hks
        obtain ⟨w, _, rest, hrest, rfl⟩ := hks
        simp [ih rest hrest]
    simp [JSON.arrayLen, sliceLen, hl xs js hjs]

theorem encodeFields_find (fs : List FieldEnc) (f : FieldEnc) (gs : List FieldEnc)
    (hne : ∀ g ∈ fs, g.key ≠ f.key) (hemit : (f.omitempty && f.isEmpty) = false) :
    ∀ ms, encodeFields (fs ++ f :: gs) = some ms →
      ∃ v, f.value = some v ∧ ms.find? (fun kv => kv.1 == f.key) = some (f.key, v) := by
  induction fs with
  | nil =>
    intro ms h
    rw [List.nil_append, encodeFields, if_neg (by simp [hemit])] at h
    simp only [Option.bind_eq_bind, Option.bind_eq_some, Option.pure_def,
      Option.some.injEq] at h
    obtain ⟨v, hv, rest, _, rfl⟩ := h
    exact ⟨v, hv, by simp⟩
  | cons g fs ih =>
    intro ms h
    have hg : g.key ≠ f.key := hne g (by simp)
    have ih' := ih (fun x hx => hne x (by simp [hx]))
    rw [List.cons_append, encodeFields] at h
    by_cases hc : (g.omitempty && g.isEmpty) = true
    · rw [if_pos hc] at h
      exact ih' ms h
    · rw [if_neg hc] at h
      simp only [Option.bind_eq_bind, Option.bind_eq_some, Option.pure_def,
        Option.some.injEq] at h
      obtain ⟨v, _, rest, hrest, rfl⟩ := h
      obtain ⟨w, hw, hfind⟩ := ih' rest hrest
      have hb : (g.key == f.key) = false := by simpa using hg
      exact ⟨w, hw, by simp [List.find?, hb, hfind]⟩

theorem envelope_entries_member (tc : TimeCodec) (e : ResponseEnvelope) (j : JSON) (n : Int)
    (h : e.MarshalJSON tc = some j) (hn : e.ResponseEntries = some n) :
    j.member "response_entries" = some (JSON.num n) := by
  simp only [ResponseEnvelope.MarshalJSON, encodeStruct, Option.map_eq_some'] at h
  obtain ⟨ms, hms, rfl⟩ := h
  obtain ⟨v, hv, hfind⟩ := encodeFields_find
    [⟨"request_id", true, e.RequestID.length == 0, encodeString e.RequestID⟩,
     ⟨"response_timestamp", false, false, encodeTime tc e.ResponseTime⟩,
     ⟨"response_state_epoch", true, e.ResponseStateEpoch == 0, encodeInt e.ResponseStateEpoch⟩,
     ⟨"response_code", false, false, encodeInt e.ResponseCode⟩,
     ⟨"error_code", true, e.ErrCode == 0, encodeInt e.ErrCode⟩,
     ⟨"error_slug", true, e.ErrSlug.length == 0, encodeString e.ErrSlug⟩,
     ⟨"error_lines", true, sliceLen e.ErrLines == 0, encodeSlice encodeString e.ErrLines⟩,
     ⟨"info_lines", true, sliceLen e.InfoLines == 0, encodeSlice encodeString e.InfoLines⟩]
    ⟨"response_entries", true, e.ResponseEntries.isNone, encodePtr encodeInt e.ResponseEntries⟩
    [⟨"response", false, false, encodeSlice (Piece.MarshalJSON tc) e.Response⟩]
    (by simp) (by simp [hn]) ms hms
  simp only [hn, encodePtr, encodeInt, Option.some.injEq] at hv
  subst hv
  simp only [JSON.member]
  rw [hfind]
  rfl

theorem encodeElems_total {α : Type} (enc : α → Option JSON)
    (h : ∀ x, ∃ j, enc x = some j) (xs : List α) :
    ∃ js, encodeElems enc xs = some js ∧ js.length = xs.length := by
  induction xs with
  | nil => exact ⟨[], rfl, rfl⟩
  | cons x xs ih =>
    obtain ⟨j, hj⟩ := h x
    obtain ⟨js, hjs, hl⟩ := ih
    exact ⟨j :: js, by simp [encodeElems, hj, hjs], by simp [hl]⟩

theorem TenantReplicationCounts_MarshalJSON_total (c : TenantReplicationCounts) :
    ∃ ms, c.MarshalJSON = some (JSON.obj ms) := by
  simp [TenantReplicationCounts.MarshalJSON, encodeStruct, encodeFields, encodeInt, encodeBool]

theorem encodeFields_find_last (fs : List FieldEnc) (f : FieldEnc)
    (hne : ∀ g ∈ fs, g.key ≠ f.key) (hom : f.omitempty = false) :
    ∀ ms, encodeFields (fs ++ [f]) = some ms →
      ∃ v, f.value = some v ∧ ms.find? (fun kv => kv.1 == f.key) = some (f.key, v) := by
  induction fs with
  | nil =>
    intro ms h
    simp only [List.nil_append, encodeFields, hom, Bool.false_and, Bool.false_eq_true,
      if_false, Option.bind_eq_bind, Option.bind_eq_some, Option.pure_def, Option.some.injEq,
      Option.some_bind] at h
    obtain ⟨v, hv, rfl⟩ := h
    exact ⟨v, hv, by simp⟩
  | cons g fs ih =>
    intro ms h
    have hg : g.key ≠ f.key := hne g (by simp)
    have ih' := ih (fun x hx => hne x (by simp [hx]))
    rw [List.cons_append, encodeFields] at h
    by_cases hc : (g.omitempty && g.isEmpty) = true
    · rw [if_pos hc] at h
      exact ih' ms h
    · rw [if_neg hc] at h
      simp only [Option.bind_eq_bind, Option.bind_eq_some, Option.pure_def,
        Option.some.injEq] at h
      obtain ⟨v, _, rest, hrest, rfl⟩ := h
      obtain ⟨w, hw, hfind⟩ := ih' rest hrest
      have hb : (g.key == f.key) = false := by simpa using hg
      exact ⟨w, hw, by simp [List.find?, hb, hfind]⟩

theorem envelope_response_member (tc : TimeCodec) (e : ResponseEnvelope) (j : JSON)
    (h : e.MarshalJSON tc = some j) :
    ∃ v, encodeSlice (Piece.MarshalJSON tc) e.Response = some v ∧
      j.member "response" = some v := by
  simp only [ResponseEnvelope.MarshalJSON, encodeStruct, Option.map_eq_some'] at h
  obtain ⟨ms, hms, rfl⟩ := h
  obtain ⟨v, hv, hfind⟩ := encodeFields_find_last
    [⟨"request_id", true, e.RequestID.length == 0, encodeString e.RequestID⟩,
     ⟨"response_timestamp", false, false, encodeTime tc e.ResponseTime⟩,
     ⟨"response_state_epoch", true, e.ResponseStateEpoch == 0, encodeInt e.ResponseStateEpoch⟩,
     ⟨"response_code", false, false, encodeInt e.ResponseCode⟩,
     ⟨"error_code", true, e.ErrCode == 0, encodeInt e.ErrCode⟩,
     ⟨"error_slug", true, e.ErrSlug.length == 0, encodeString e.ErrSlug⟩,
     ⟨"error_lines", true, sliceLen e.ErrLines == 0, encodeSlice encodeString e.ErrLines⟩,
     ⟨"info_lines", true, sliceLen e.InfoLines == 0, encodeSlice encodeString e.InfoLines⟩,
     ⟨"response_entries", true, e.ResponseEntries.isNone, encodePtr encodeInt e.ResponseEntries⟩]
    ⟨"response", false, false, encodeSlice (Piece.MarshalJSON tc) e.Response⟩
    (by simp) rfl ms hms
  exact ⟨v, hv, by simp only [JSON.member]; rw [hfind]; rfl⟩

theorem encodeSlice_shape {α : Type} (enc : α → Option JSON) (s : Slice α) (v : JSON)
    (h : encodeSlice enc s = some v) : v = JSON.null ∨ ∃ elems, v = JSON.arr elems := by
  cases s with
  | none =>
    simp only [encodeSlice, Option.some.injEq] at h
    exact Or.inl h.symm
  | some xs =>
    simp only [encodeSlice, Option.map_eq_some'] at h
    obtain ⟨js, _, rfl⟩ := h
    exact Or.inr ⟨js, rfl⟩

theorem ResponseDealRequest_MarshalJSON_shape (tc : TimeCodec) (r : ResponseDealRequest)
    (j : JSON) (h : r.MarshalJSON tc = some j) : ∃ ms, j = JSON.obj ms := by
  simp only [ResponseDealRequest.MarshalJSON, encodeStruct, Option.map_eq_some'] at h
  obtain ⟨ms, _, rfl⟩ := h
  exact ⟨ms, rfl⟩

/-! ## The claims -/

/-- C1. `TrimCidString` agrees with its reference definition on every input: it
returns a string of at most 16 bytes unchanged, and maps a longer string to its
first 6 bytes, `~`, and its last 8 bytes, a result of exactly 15 bytes. -/
theorem TrimCidString_refines_reference (cs : GoString) :
    TrimCidString cs = some (trimCidStringRef cs) ∧
    (cs.length ≤ 16 → TrimCidString cs = some cs) ∧
    (16 < cs.length →
      ∃ pre mid suf, cs = pre ++ mid ++ suf ∧ pre.length = 6 ∧ suf.length = 8 ∧
        TrimCidString cs = some (pre ++ goStr "~" ++ suf) ∧
        (pre ++ goStr "~" ++ suf).length = 15) := by
  refine ⟨TrimCidString_eq_ref cs, TrimCidString_short cs, fun h => ?_⟩
  refine ⟨cs.take 6, (cs.drop 6).take (cs.length - 14), cs.drop (cs.length - 8), ?_, ?_, ?_,
    TrimCidString_long cs h, trimmed_length cs h⟩
  · have e : cs.drop (cs.length - 8) = (cs.drop 6).drop (cs.length - 14) := by
      rw [List.drop_drop]; congr 1; omega
    rw [e, List.append_assoc, List.take_append_drop, List.take_append_drop]
  · simp; omega
  · simp; omega

/-- Witness of C1 at a 17-byte string, the shortest that is shortened. -/
theorem TrimCidString_refines_reference_witness :
    16 < (goStr "abcdefghijklmnopq").length ∧
    ∃ pre mid suf, goStr "abcdefghijklmnopq" = pre ++ mid ++ suf ∧ pre.length = 6 ∧
      suf.length = 8 ∧
      TrimCidString (goStr "abcdefghijklmnopq") = some (pre ++ goStr "~" ++ suf) ∧
      (pre ++ goStr "~" ++ suf).length = 15 :=
  ⟨by decide, (TrimCidString_refines_reference (goStr "abcdefghijklmnopq")).2.2 (by decide)⟩

/-- C2 (as stated, refuted). On the documented example the function does not
return `bafybe~5fbzdi`. -/
theorem TrimCidString_example_as_documented_fails :
    TrimCidString exampleCid ≠ some (goStr "bafybe~5fbzdi") := by
  decide

/-- C2 (amended). On the documented example the function returns
`bafybe~y55fbzdi`: the first 6 bytes, `~`, and the last 8 bytes. -/
theorem TrimCidString_example :
    TrimCidString exampleCid = some (goStr "bafybe~y55fbzdi") := by
  decide

/-- C3. `InitDerivedVals` always returns (no panic), and the returned error is
non-nil exactly when `ProviderID` or `OriginalPayloadCid` is the empty string,
for every descriptor and every piece CID. -/
theorem InitDerivedVals_error_iff (s : FilSourceDAG) (pieceCid : GoString) :
    ∃ s1 err, s.InitDerivedVals pieceCid = some (s1, err) ∧
      (err ≠ none ↔ (s.ProviderID = goStr "" ∨ s.OriginalPayloadCid = goStr "")) := by
  by_cases h : s.ProviderID = goStr "" ∨ s.OriginalPayloadCid = goStr ""
  · exact ⟨_, _, InitDerivedVals_invalid s pieceCid h, by simp [h]⟩
  · exact ⟨_, _, InitDerivedVals_valid s pieceCid h, by simp [h]⟩

/-- C4. With a non-empty `ProviderID` and a non-empty `OriginalPayloadCid` the
call succeeds and `SampleRetrieveCmd` is the retrieval command built from the
provider, the payload CID and the two shortened CIDs; the command contains the
two shortened CIDs joined by `__` and ends in `.car`. -/
theorem InitDerivedVals_sample_cmd (s : FilSourceDAG) (pieceCid : GoString)
    (hp : s.ProviderID ≠ goStr "") (ho : s.OriginalPayloadCid ≠ goStr "") :
    ∃ s1 shortPiece shortPayload,
      s.InitDerivedVals pieceCid = some (s1, none) ∧
      TrimCidString pieceCid = some shortPiece ∧
      TrimCidString s.OriginalPayloadCid = some shortPayload ∧
      s1.SampleRetrieveCmd =
        goStr "lotus client retrieve --provider " ++ s.ProviderID ++
        goStr " --maxPrice 0 --allow-local --car '" ++ s.OriginalPayloadCid ++
        goStr "' $(pwd)/" ++ shortPiece ++ goStr "__" ++ shortPayload ++ goStr ".car" ∧
      (shortPiece ++ goStr "__" ++ shortPayload) <:+: s1.SampleRetrieveCmd ∧
      goStr ".car" <:+ s1.SampleRetrieveCmd := by
  have h : ¬ (s.ProviderID = goStr "" ∨ s.OriginalPayloadCid = goStr "") := by
    rintro (h | h)
    · exact hp h
    · exact ho h
  refine ⟨_, _, _, InitDerivedVals_valid s pieceCid h, TrimCidString_eq_ref _,
    TrimCidString_eq_ref _, rfl, ?_, ?_⟩
  · refine ⟨goStr "lotus client retrieve --provider " ++ s.ProviderID ++
      goStr " --maxPrice 0 --allow-local --car '" ++ s.OriginalPayloadCid ++
      goStr "' $(pwd)/", goStr ".car", ?_⟩
    simp [retrieveCmdText, List.append_assoc]
  · exact ⟨_, rfl⟩

/-- Witness of C4 at the example descriptor and piece CID. -/
theorem InitDerivedVals_sample_cmd_witness :
    ∃ s1 shortPiece shortPayload,
      exampleSource.InitDerivedVals examplePieceCid = some (s1, none) ∧
      TrimCidString examplePieceCid = some shortPiece ∧
      TrimCidString exampleSource.OriginalPayloadCid = some shortPayload ∧
      s1.SampleRetrieveCmd =
        goStr "lotus client retrieve --provider " ++ exampleSource.ProviderID ++
        goStr " --maxPrice 0 --allow-local --car '" ++ exampleSource.OriginalPayloadCid ++
        goStr "' $(pwd)/" ++ shortPiece ++ goStr "__" ++ shortPayload ++ goStr ".car" ∧
      (shortPiece ++ goStr "__" ++ shortPayload) <:+: s1.SampleRetrieveCmd ∧
      goStr ".car" <:+ s1.SampleRetrieveCmd :=
  InitDerivedVals_sample_cmd exampleSource examplePieceCid (by decide) (by decide)

/-- C5. `InitDerivedVals` is idempotent: the call returns a descriptor and an
outcome, and a second call with the same piece CID on the returned descriptor
returns that same descriptor, equal in every field, and the same outcome. -/
theorem InitDerivedVals_idempotent (s : FilSourceDAG) (pieceCid : GoString) :
    ∃ s1 err, s.InitDerivedVals pieceCid = some (s1, err) ∧
      s1.InitDerivedVals pieceCid = some (s1, err) := by
  by_cases h : s.ProviderID = goStr "" ∨ s.OriginalPayloadCid = goStr ""
  · exact ⟨_, _, InitDerivedVals_invalid s pieceCid h,
      InitDerivedVals_invalid { s with SourceType := goStr "FilecoinDAG" } pieceCid h⟩
  · exact ⟨_, _, InitDerivedVals_valid s pieceCid h,
      InitDerivedVals_valid { s with
        SourceType := goStr "FilecoinDAG"
        SampleRetrieveCmd := retrieveCmdText s.ProviderID s.OriginalPayloadCid
          (trimCidStringRef pieceCid) (trimCidStringRef s.OriginalPayloadCid) } pieceCid h⟩

/-- C6. Whatever `SourceType` held before and whether the call succeeds or
fails, after `InitDerivedVals` returns the field `SourceType` is `FilecoinDAG`
and `SrcType()` returns `FilecoinDAG`. -/
theorem InitDerivedVals_sets_source_type (s : FilSourceDAG) (pieceCid : GoString) :
    ∃ s1 err, s.InitDerivedVals pieceCid = some (s1, err) ∧
      s1.SourceType = goStr "FilecoinDAG" ∧ s1.SrcType = goStr "FilecoinDAG" := by
  by_cases h : s.ProviderID = goStr "" ∨ s.OriginalPayloadCid = goStr ""
  · exact ⟨_, _, InitDerivedVals_invalid s pieceCid h, rfl, rfl⟩
  · exact ⟨_, _, InitDerivedVals_valid s pieceCid h, rfl, rfl⟩

/-- C7 (as stated, refuted). On a descriptor without a provider the call
returns the validation error and leaves `SampleRetrieveCmd` as it was: the
command after the call is the earlier text `stale`, it follows the earlier
value when that is changed to `other`, and it is not a formatted command. -/
theorem InitDerivedVals_error_keeps_stale_cmd :
    (∃ s1 e, staleSource.InitDerivedVals examplePieceCid = some (s1, some e) ∧
      s1.SampleRetrieveCmd = goStr "stale" ∧
      ∀ shortPiece shortPayload, s1.SampleRetrieveCmd ≠
        retrieveCmdText staleSource.ProviderID staleSource.OriginalPayloadCid
          shortPiece shortPayload) ∧
    (∃ s2 e, ({ staleSource with SampleRetrieveCmd := goStr "other" }).InitDerivedVals
        examplePieceCid = some (s2, some e) ∧
      s2.SampleRetrieveCmd = goStr "other") ∧
    goStr "stale" ≠ goStr "other" := by
  refine ⟨⟨_, _, InitDerivedVals_invalid staleSource examplePieceCid (Or.inl rfl), rfl, ?_⟩,
    ⟨_, _, InitDerivedVals_invalid _ examplePieceCid (Or.inl rfl), rfl⟩, by decide⟩
  intro shortPiece shortPayload hEq
  have hl : goStr "lotus client retrieve --provider " =
      108 :: goStr "otus client retrieve --provider " := by decide
  have hs : ({ staleSource with SourceType := goStr "FilecoinDAG" }).SampleRetrieveCmd =
      115 :: goStr "tale" := by decide
  rw [hs, retrieveCmdText, hl] at hEq
  simp at hEq

/-- C7 (amended). A call that succeeds sets `SampleRetrieveCmd` to the freshly
formatted retrieval command, whatever the field held before; a call that
returns the validation error leaves `SampleRetrieveCmd` as it was. -/
theorem InitDerivedVals_cmd_overwritten_on_success (s : FilSourceDAG)
    (pieceCid old : GoString) :
    ∃ s1 err shortPiece shortPayload,
      s.InitDerivedVals pieceCid = some (s1, err) ∧
      TrimCidString pieceCid = some shortPiece ∧
      TrimCidString s.OriginalPayloadCid = some shortPayload ∧
      (err = none →
        s1.SampleRetrieveCmd =
          goStr "lotus client retrieve --provider " ++ s.ProviderID ++
          goStr " --maxPrice 0 --allow-local --car '" ++ s.OriginalPayloadCid ++
          goStr "' $(pwd)/" ++ shortPiece ++ goStr "__" ++ shortPayload ++ goStr ".car" ∧
        ∃ s2, ({ s with SampleRetrieveCmd := old }).InitDerivedVals pieceCid =
            some (s2, none) ∧
          s2.SampleRetrieveCmd = s1.SampleRetrieveCmd) ∧
      (err ≠ none → s1.SampleRetrieveCmd = s.SampleRetrieveCmd) := by
  by_cases h : s.ProviderID = goStr "" ∨ s.OriginalPayloadCid = goStr ""
  · exact ⟨{ s with SourceType := goStr "FilecoinDAG" },
      some ⟨missingValuesFormat, { s with SourceType := goStr "FilecoinDAG" }⟩,
      trimCidStringRef pieceCid, trimCidStringRef s.OriginalPayloadCid,
      InitDerivedVals_invalid s pieceCid h, TrimCidString_eq_ref _, TrimCidString_eq_ref _,
      fun h0 => absurd h0 (by simp), fun _ => rfl⟩
  · exact ⟨{ s with
        SourceType := goStr "FilecoinDAG"
        SampleRetrieveCmd := retrieveCmdText s.ProviderID s.OriginalPayloadCid
          (trimCidStringRef pieceCid) (trimCidStringRef s.OriginalPayloadCid) },
      none, trimCidStringRef pieceCid, trimCidStringRef s.OriginalPayloadCid,
      InitDerivedVals_valid s pieceCid h, TrimCidString_eq_ref _, TrimCidString_eq_ref _,
      fun _ => ⟨rfl, _, InitDerivedVals_valid { s with SampleRetrieveCmd := old } pieceCid h,
        rfl⟩,
      fun h0 => absurd rfl h0⟩

/-- Witness of C7 (amended): a successful call on the example descriptor, and
the same call after the command field was set to `stale`. -/
theorem InitDerivedVals_cmd_overwritten_on_success_witness :
    ∃ s1 s2, exampleSource.InitDerivedVals examplePieceCid = some (s1, none) ∧
      ({ exampleSource with SampleRetrieveCmd := goStr "stale" }).InitDerivedVals
        examplePieceCid = some (s2, none) ∧
      s2.SampleRetrieveCmd = s1.SampleRetrieveCmd := by
  obtain ⟨s1, err, _, _, h1, _, _, hok, _⟩ :=
    InitDerivedVals_cmd_overwritten_on_success exampleSource examplePieceCid (goStr "stale")
  have he : err = none := by
    have h2 := InitDerivedVals_valid exampleSource examplePieceCid (by decide)
    rw [h1] at h2
    exact (Prod.mk.inj (Option.some.inj h2)).2
  obtain ⟨_, s2, h3, h4⟩ := hok he
  exact ⟨s1, s2, he ▸ h1, h3, h4⟩

/-- C8. `TrimCidString` is total: it returns on every input, and whenever the
two slice expressions `cs[0:6]` and `cs[len(cs)-8:]` are evaluated (the length
exceeds 16) both are within bounds. -/
theorem TrimCidString_total (cs : GoString) :
    (TrimCidString cs).isSome = true ∧
    (¬ len cs ≤ cidTrimPrefix + cidTrimSuffix + 2 →
      (goSlice cs 0 cidTrimPrefix).isSome = true ∧
      (goSlice cs (len cs - cidTrimSuffix) (len cs)).isSome = true) := by
  refine ⟨by rw [TrimCidString_eq_ref]; rfl, fun h => ?_⟩
  have hlen : 16 < cs.length := by
    simp only [len, cidTrimPrefix, cidTrimSuffix] at h; omega
  have h1 := goSlice_prefix cs 6 (by omega)
  have h2 := goSlice_suffix cs 8 (by omega)
  simp only [Nat.cast_ofNat] at h1 h2
  simp only [cidTrimPrefix, cidTrimSuffix, h1, h2, Option.isSome_some, and_self]

/-- Witness of C8 at a 17-byte string, the shortest on which the slices are
evaluated. -/
theorem TrimCidString_total_witness :
    (goSlice (goStr "abcdefghijklmnopq") 0 cidTrimPrefix).isSome = true ∧
    (goSlice (goStr "abcdefghijklmnopq")
      (len (goStr "abcdefghijklmnopq") - cidTrimSuffix)
      (len (goStr "abcdefghijklmnopq"))).isSome = true :=
  (TrimCidString_total (goStr "abcdefghijklmnopq")).2 (by decide)

/-- C9. `TrimCidString` is idempotent: applying it to its own result returns
that result; applied any number of times to a string of at most 16 bytes it
returns the string unchanged. -/
theorem TrimCidString_idempotent (cs : GoString) :
    (∃ t, TrimCidString cs = some t ∧ TrimCidString t = some t) ∧
    (cs.length ≤ 16 →
      ∀ n : Nat, (fun o : Option GoString => o.bind TrimCidString)^[n] (some cs) = some cs) := by
  refine ⟨⟨_, TrimCidString_eq_ref cs, TrimCidString_twice cs⟩, fun h n => ?_⟩
  induction n with
  | zero => rfl
  | succ n ih =>
    rw [Function.iterate_succ_apply, Option.some_bind, TrimCidString_short cs h, ih]

/-- Witness of C9 at the 16-byte string `0123456789abcdef`. -/
theorem TrimCidString_idempotent_witness :
    ∀ n : Nat, (fun o : Option GoString => o.bind TrimCidString)^[n]
      (some (goStr "0123456789abcdef")) = some (goStr "0123456789abcdef") :=
  (TrimCidString_idempotent (goStr "0123456789abcdef")).2 (by decide)

/-- C10 (as stated, refuted). The digits of `ErrSystemTemporarilyDisabled`
(4503) match none of the four group patterns. -/
theorem ErrSystemTemporarilyDisabled_in_no_group :
    ErrSystemTemporarilyDisabled ∈ declaredAPIErrorCodes ∧
    causeGroupsOf ErrSystemTemporarilyDisabled = [] := by
  decide

/-- C10 (amended). Every declared error code other than
`ErrSystemTemporarilyDisabled` matches exactly one of the four group patterns,
`ErrSystemTemporarilyDisabled` (4503) matches none, and so no declared code
matches two. -/
theorem declared_codes_cause_groups :
    ∀ c ∈ declaredAPIErrorCodes,
      (causeGroupsOf c).length = if c = ErrSystemTemporarilyDisabled then 0 else 1 := by
  decide

/-- Witness of C10 (amended) at `ErrOversizedPiece` (4011), which matches the
single pattern `x01x`. -/
theorem declared_codes_cause_groups_witness :
    ErrOversizedPiece ∈ declaredAPIErrorCodes ∧
    (causeGroupsOf ErrOversizedPiece).length = 1 :=
  ⟨by decide, declared_codes_cause_groups ErrOversizedPiece (by decide)⟩

/-- C11. The declared `APIErrorCode` constants are thirteen, pairwise distinct,
and their values are exactly 4400, 4401, 4503, 4011, 4012, 4013, 4020, 4021,
4022, 4023, 4024, 4029 and 4030. -/
theorem declared_codes_exact :
    declaredAPIErrorCodes.length = 13 ∧ declaredAPIErrorCodes.Nodup ∧
    declaredAPIErrorCodes =
      [4400, 4401, 4503, 4011, 4012, 4013, 4020, 4021, 4022, 4023, 4024, 4029, 4030] := by
  decide

/-- C12. Every declared `APIErrorCode` constant is a four-digit integer whose
first digit is 4. -/
theorem declared_codes_four_digits :
    ∀ c ∈ declaredAPIErrorCodes, 1000 ≤ c ∧ c ≤ 9999 ∧ Int.tdiv c 1000 = 4 := by
  decide

/-- Witness of C12 at `ErrExternalReservationRefused` (4030). -/
theorem declared_codes_four_digits_witness :
    1000 ≤ ErrExternalReservationRefused ∧ ErrExternalReservationRefused ≤ 9999 ∧
      Int.tdiv ErrExternalReservationRefused 1000 = 4 :=
  declared_codes_four_digits ErrExternalReservationRefused (by decide)

/-- C17 (as stated, refuted). Nine two-byte characters are at most 16
characters, so the character-wise shortening leaves them unchanged, but they
are 18 bytes and `TrimCidString` cuts them. -/
theorem TrimCidString_counts_bytes_not_chars :
    nineAccents.length ≤ 16 ∧ trimCidChars nineAccents = nineAccents ∧
    TrimCidString (utf8Bytes nineAccents) ≠ some (utf8Bytes (trimCidChars nineAccents)) ∧
    TrimCidString (utf8Bytes nineAccents) =
      some ((utf8Bytes nineAccents).take 6 ++ goStr "~" ++ (utf8Bytes nineAccents).drop 10) := by
  decide

/-- C17 (amended). On a string of single-byte (ASCII) characters
`TrimCidString` shortens by characters: more than 16 characters become the
first 6 characters, `~`, and the last 8 characters, and at most 16 characters
are returned unchanged. -/
theorem TrimCidString_chars_of_ascii (cs : List Char) (h : ∀ c ∈ cs, c.val ≤ 127) :
    TrimCidString (utf8Bytes cs) = some (utf8Bytes (trimCidChars cs)) ∧
    (cs.length ≤ 16 → TrimCidString (utf8Bytes cs) = some (utf8Bytes cs)) ∧
    (16 < cs.length → TrimCidString (utf8Bytes cs) =
      some (utf8Bytes (cs.take 6 ++ ['~'] ++ cs.drop (cs.length - 8)))) := by
  have key := TrimCidString_ascii cs h
  refine ⟨key, fun hs => ?_, fun hl => ?_⟩
  · rw [key, trimCidChars, if_pos hs]
  · rw [key, trimCidChars, if_neg (by omega)]

/-- Witness of C17 (amended) at the 17 characters `abcdefghijklmnopq`. -/
theorem TrimCidString_chars_of_ascii_witness :
    TrimCidString (utf8Bytes "abcdefghijklmnopq".data) =
      some (utf8Bytes "abcdef~jklmnopq".data) :=
  (TrimCidString_chars_of_ascii "abcdefghijklmnopq".data (by decide)).2.2 (by decide)

/-- C18. `TrimCidString` never lengthens its input and returns at most 16
bytes; its result differs from the input exactly when the input has more than
16 bytes, and is then at least 2 bytes shorter. -/
theorem TrimCidString_length_bounds (cs : GoString) :
    ∃ r, TrimCidString cs = some r ∧ r.length ≤ cs.length ∧ r.length ≤ 16 ∧
      (r ≠ cs ↔ 16 < cs.length) ∧ (16 < cs.length → r.length + 2 ≤ cs.length) := by
  by_cases h : cs.length ≤ 16
  · refine ⟨cs, TrimCidString_short cs h, le_refl _, h, ?_, fun hl => ?_⟩
    · constructor
      · intro hne; exact absurd rfl hne
      · intro hl; omega
    · omega
  · have hl : 16 < cs.length := by omega
    have h15 := trimmed_length cs hl
    refine ⟨_, TrimCidString_long cs hl, by omega, by omega, ?_, fun _ => by omega⟩
    constructor
    · intro _; exact hl
    · intro _ heq
      rw [heq] at h15
      omega

/-- Witness of C18 at the documented example, 59 bytes long. -/
theorem TrimCidString_length_bounds_witness :
    16 < exampleCid.length ∧
    ∃ r, TrimCidString exampleCid = some r ∧ r.length + 2 ≤ exampleCid.length := by
  obtain ⟨r, hr, _, _, _, h2⟩ := TrimCidString_length_bounds exampleCid
  exact ⟨by decide, r, hr, h2 (by decide)⟩

/-- C19. Whether `InitDerivedVals` succeeds or fails, the fields `DealID`,
`ProviderID`, `OriginalPayloadCid`, `DealExpiration`, `IsFilplus`, `SectorID`
and `SectorExpiration` are the same after the call as before. -/
theorem InitDerivedVals_frame (s : FilSourceDAG) (pieceCid : GoString) :
    ∃ s1 err, s.InitDerivedVals pieceCid = some (s1, err) ∧
      s1.DealID = s.DealID ∧ s1.ProviderID = s.ProviderID ∧
      s1.OriginalPayloadCid = s.OriginalPayloadCid ∧
      s1.DealExpiration = s.DealExpiration ∧ s1.IsFilplus = s.IsFilplus ∧
      s1.SectorID = s.SectorID ∧ s1.SectorExpiration = s.SectorExpiration := by
  by_cases h : s.ProviderID = goStr "" ∨ s.OriginalPayloadCid = goStr ""
  · exact ⟨_, _, InitDerivedVals_invalid s pieceCid h, rfl, rfl, rfl, rfl, rfl, rfl, rfl⟩
  · exact ⟨_, _, InitDerivedVals_valid s pieceCid h, rfl, rfl, rfl, rfl, rfl, rfl, rfl⟩
/-- C13 (the code at the failing input). The `response` member of every
serialized envelope is the encoding of the `[]Piece` its field is declared
with, `null` or an array; a serialized `ResponseDealRequest` is a JSON object,
so no envelope carries one in its `Response` field. -/
theorem envelope_response_never_deal_request (tc : TimeCodec) (e : ResponseEnvelope)
    (j : JSON) (h : e.MarshalJSON tc = some j) :
    ∃ v, j.member "response" = some v ∧
      encodeSlice (Piece.MarshalJSON tc) e.Response = some v ∧
      (v = JSON.null ∨ ∃ elems, v = JSON.arr elems) ∧
      ∀ (r : ResponseDealRequest) (jr : JSON), r.MarshalJSON tc = some jr → v ≠ jr := by
  obtain ⟨v, hv, hm⟩ := envelope_response_member tc e j h
  have hshape := encodeSlice_shape _ _ v hv
  refine ⟨v, hm, hv, hshape, fun r jr hjr heq => ?_⟩
  obtain ⟨ms, hms⟩ := ResponseDealRequest_MarshalJSON_shape tc r jr hjr
  rw [heq, hms] at hshape
  rcases hshape with h0 | ⟨elems, h1⟩
  · exact JSON.noConfusion h0
  · exact JSON.noConfusion h1

/-- Witness of C13 at the example envelope and the example deal request. -/
theorem envelope_response_never_deal_request_witness :
    ∃ j v, exampleEnvelope.MarshalJSON zeroTimeCodec = some j ∧
      j.member "response" = some v ∧
      ∀ jr, exampleDealRequest.MarshalJSON zeroTimeCodec = some jr → v ≠ jr := by
  have hj : ∃ j, exampleEnvelope.MarshalJSON zeroTimeCodec = some j := ⟨_, rfl⟩
  obtain ⟨j, hj⟩ := hj
  obtain ⟨v, hv, _, _, hne⟩ :=
    envelope_response_never_deal_request zeroTimeCodec exampleEnvelope j hj
  exact ⟨j, v, hj, hv, fun jr hjr => hne exampleDealRequest jr hjr⟩

/-- C14. A `ResponseDealRequest` whose `DealStartTime` and `DealStartEpoch` are
nil serializes to an object whose only member is `tenant_replication_counts`:
the keys `deal_start_time` and `deal_start_epoch` are absent, not `null`; with
one accounting record the member is the array of that record. -/
theorem ResponseDealRequest_omits_absent_start (tc : TimeCodec) (r : ResponseDealRequest)
    (h1 : r.DealStartTime = none) (h2 : r.DealStartEpoch = none) :
    ∃ j counts, r.MarshalJSON tc = some j ∧
      j.keys = ["tenant_replication_counts"] ∧
      j.member "deal_start_time" = none ∧ j.member "deal_start_epoch" = none ∧
      j.member "tenant_replication_counts" = some counts ∧
      encodeSlice TenantReplicationCounts.MarshalJSON r.ReplicationCounts = some counts ∧
      ∀ c, r.ReplicationCounts = some [c] →
        ∃ cj, c.MarshalJSON = some cj ∧ counts = JSON.arr [cj] := by
  obtain ⟨rc, t, ep⟩ := r
  simp only at h1 h2
  subst h1 h2
  have hc : ∃ counts, encodeSlice TenantReplicationCounts.MarshalJSON rc = some counts := by
    cases rc with
    | none => exact ⟨JSON.null, rfl⟩
    | some xs =>
      obtain ⟨js, hjs, _⟩ := encodeElems_total TenantReplicationCounts.MarshalJSON
        (fun c => by
          obtain ⟨ms, hms⟩ := TenantReplicationCounts_MarshalJSON_total c
          exact ⟨_, hms⟩) xs
      exact ⟨JSON.arr js, by simp [encodeSlice, hjs]⟩
  obtain ⟨counts, hcounts⟩ := hc
  refine ⟨JSON.obj [("tenant_replication_counts", counts)], counts, ?_, rfl, rfl, rfl, rfl,
    hcounts, ?_⟩
  · simp [ResponseDealRequest.MarshalJSON, encodeStruct, encodeFields, hcounts]
  · intro c hrc
    subst hrc
    obtain ⟨ms, hms⟩ := TenantReplicationCounts_MarshalJSON_total c
    refine ⟨JSON.obj ms, hms, ?_⟩
    simp only [encodeSlice, encodeElems, hms, Option.bind_eq_bind, Option.some_bind,
      Option.pure_def, Option.map_some', Option.some.injEq] at hcounts
    exact hcounts.symm

/-- Witness of C14 at a deal request with one accounting record. -/
theorem ResponseDealRequest_omits_absent_start_witness :
    ∃ j counts, exampleDealRequest.MarshalJSON zeroTimeCodec = some j ∧
      j.keys = ["tenant_replication_counts"] ∧
      j.member "deal_start_time" = none ∧ j.member "deal_start_epoch" = none ∧
      j.member "tenant_replication_counts" = some counts ∧
      ∃ cj, exampleCounts.MarshalJSON = some cj ∧ counts = JSON.arr [cj] := by
  obtain ⟨j, counts, hj, hk, ht, he, hc, _, hone⟩ :=
    ResponseDealRequest_omits_absent_start zeroTimeCodec exampleDealRequest rfl rfl
  exact ⟨j, counts, hj, hk, ht, he, hc, hone exampleCounts rfl⟩

/-- C16 (as stated, refuted). An envelope whose `ResponseEntries` points to 5
beside a `Response` of one piece is a value of the record; it is serialized
with `response_entries` 5 and a `response` array of one element, and that
document is read back as the same envelope. -/
theorem envelope_entries_not_enforced :
    mismatchedEnvelope.ResponseEntries = some 5 ∧
    sliceLen mismatchedEnvelope.Response = 1 ∧
    ∃ j elems, mismatchedEnvelope.MarshalJSON zeroTimeCodec = some j ∧
      j.member "response_entries" = some (JSON.num 5) ∧
      j.member "response" = some (JSON.arr elems) ∧ elems.length = 1 ∧
      ResponseEnvelope.UnmarshalJSON zeroTimeCodec j = some mismatchedEnvelope := by
  have hback := ResponseEnvelope_roundTrip zeroTimeCodec mismatchedEnvelope (by decide)
  have hsame : mismatchedEnvelope.readBack zeroTimeCodec = mismatchedEnvelope := by decide
  rw [hsame] at hback
  exact ⟨rfl, rfl, _, _, rfl, rfl, rfl, rfl, hback _ rfl⟩

/-- C16 (amended). The record carries `ResponseEntries` as its producer set
it: for every serialized envelope with `ResponseEntries` present, the document
has `response_entries` equal to that integer and a `response` that is `null`
or an array with as many elements as `Response`, so the count written equals
the number of elements written exactly when `ResponseEntries` is the length of
`Response` in the envelope. -/
theorem envelope_entries_carried (tc : TimeCodec) (e : ResponseEnvelope) (j : JSON) (n : Int)
    (hj : e.MarshalJSON tc = some j) (hn : e.ResponseEntries = some n) :
    j.member "response_entries" = some (JSON.num n) ∧
    ∃ v, j.member "response" = some v ∧ (v = JSON.null ∨ ∃ elems, v = JSON.arr elems) ∧
      v.arrayLen = sliceLen e.Response ∧
      (n = (sliceLen e.Response : Int) ↔ n = (v.arrayLen : Int)) := by
  obtain ⟨v, hv, hm⟩ := envelope_response_member tc e j hj
  have hl := encodeSlice_arrayLen _ _ v hv
  exact ⟨envelope_entries_member tc e j n hj hn, v, hm, encodeSlice_shape _ _ v hv, hl,
    by rw [hl]⟩

/-- Witness of C16 (amended) at the example envelope, whose `ResponseEntries`
1 is the length of its `Response`. -/
theorem envelope_entries_carried_witness :
    ∃ j v, exampleEnvelope.MarshalJSON zeroTimeCodec = some j ∧
      j.member "response_entries" = some (JSON.num 1) ∧
      j.member "response" = some v ∧ (1 : Int) = (v.arrayLen : Int) := by
  have hj : ∃ j, exampleEnvelope.MarshalJSON zeroTimeCodec = some j := ⟨_, rfl⟩
  obtain ⟨j, hj⟩ := hj
  obtain ⟨h1, v, hv, _, _, hiff⟩ :=
    envelope_entries_carried zeroTimeCodec exampleEnvelope j 1 hj rfl
  exact ⟨j, v, hj, h1, hv, hiff.mp rfl⟩

end Types
